import Mathlib

/-!
Verification development for the Gemini-RAG MCP gateway
(`mcp-server/index.mjs`, server version 2.2).

The gateway is embedded shallowly: handlers become state-passing
functions over an explicit `AppState`; external calls (Supabase REST,
Gemini API) are recorded in a trace and answered from oracles stored in
the state.  JavaScript truthiness on strings (null / "" are falsy) is
modelled explicitly by `jsTruthyStr`.
-/

namespace GeminiRag

/-- JS truthiness for an optional string: `null`/`undefined` and `""` are falsy. -/
def jsTruthyStr : Option String → Option String
  | none => none
  | some s => if s = "" then none else some s

/-- JS `a || b` on (optional) strings: falsy `a` falls through to `b`. -/
def jsOrStr (a b : Option String) : Option String :=
  match jsTruthyStr a with
  | some s => some s
  | none => jsTruthyStr b

/-- JS `String.prototype.includes` over the characters of the strings. -/
def listIncludes (hay needle : List Char) : Bool :=
  match hay with
  | [] => needle.isEmpty
  | _ :: rest => needle.isPrefixOf hay || listIncludes rest needle

/-- `strIncludes hay needle` mirrors JS `hay.includes(needle)`. -/
def strIncludes (hay needle : String) : Bool :=
  listIncludes hay.data needle.data

/-- JS `toLowerCase` (ASCII case folding), over the characters. -/
def strLower (s : String) : String := String.mk (s.data.map Char.toLower)

/-- JS `startsWith(pre)`. -/
def strHasPrefix (pre s : String) : Bool := List.isPrefixOf pre.data s.data

/-- JS `trim()`. -/
def strTrim (s : String) : String :=
  String.mk (((s.data.dropWhile Char.isWhitespace).reverse.dropWhile Char.isWhitespace).reverse)

/-- JS `split(sep)` for a one-character separator. -/
def splitOnChar (l : List Char) (sep : Char) : List (List Char) :=
  match l with
  | [] => [[]]
  | c :: rest =>
    let r := splitOnChar rest sep
    if c = sep then [] :: r
    else
      match r with
      | h :: t => (c :: h) :: t
      | [] => [[c]]

/-- Association-list lookup, mirroring `Map.get` (first binding wins). -/
def mget {α : Type} (m : List (String × α)) (k : String) : Option α :=
  match m with
  | [] => none
  | (k', v) :: rest => if k' = k then some v else mget rest k

/-- `Map.set`: replace/insert the binding for `k`. -/
def mset {α : Type} (m : List (String × α)) (k : String) (v : α) : List (String × α) :=
  (k, v) :: m.filter (fun p => p.1 ≠ k)

/-- `Map.delete`. -/
def mdel {α : Type} (m : List (String × α)) (k : String) : List (String × α) :=
  m.filter (fun p => p.1 ≠ k)

theorem mget_mset_self {α : Type} (m : List (String × α)) (k : String) (v : α) :
    mget (mset m k v) k = some v := by
  simp [mget, mset]

theorem mget_filter_self {α : Type} (m : List (String × α)) (k : String) :
    mget (m.filter (fun p => p.1 ≠ k)) k = none := by
  induction m with
  | nil => simp [mget]
  | cons p rest ih =>
    by_cases h : p.1 = k
    · simpa [List.filter_cons, h] using ih
    · simpa [List.filter_cons, h, mget] using ih

theorem mget_filter_of_ne {α : Type} (m : List (String × α)) (k k' : String)
    (h : k ≠ k') : mget (m.filter (fun p => p.1 ≠ k)) k' = mget m k' := by
  induction m with
  | nil => rfl
  | cons p rest ih =>
    by_cases hp : p.1 = k
    · have hpk' : ¬ p.1 = k' := fun hh => h (hp.symm.trans hh)
      simpa [List.filter_cons, hp, mget, hpk', h] using ih
    · by_cases hk' : p.1 = k'
      · simp [List.filter_cons, hp, mget, hk', Ne.symm h]
      · simpa [List.filter_cons, hp, mget, hk'] using ih

theorem mget_mset_ne {α : Type} (m : List (String × α)) (k k' : String) (v : α)
    (h : k ≠ k') : mget (mset m k v) k' = mget m k' := by
  simp only [mset, mget, if_neg h]
  exact mget_filter_of_ne m k k' h

theorem mget_mdel_self {α : Type} (m : List (String × α)) (k : String) :
    mget (mdel m k) k = none :=
  mget_filter_self m k

theorem mget_mdel_ne {α : Type} (m : List (String × α)) (k k' : String)
    (h : k ≠ k') : mget (mdel m k) k' = mget m k' :=
  mget_filter_of_ne m k k' h

/-! ## JSON-ish argument values (tool call arguments) -/

inductive JVal
  | jstr (s : String)
  | jnum (n : Int)
  | jbool (b : Bool)
  | jnull
deriving Repr, DecidableEq

abbrev JObj := List (String × JVal)

/-- Read a string-typed field of the raw argument object. -/
def JObj.getStr (o : JObj) (k : String) : Option String :=
  match mget o k with
  | some (JVal.jstr s) => some s
  | _ => none

/-- Read a number-typed field of the raw argument object. -/
def JObj.getNum (o : JObj) (k : String) : Option Int :=
  match mget o k with
  | some (JVal.jnum n) => some n
  | _ => none

/-! ## Data model: Supabase rows and the projections the gateway uses -/

/-- A row of the `stores` table (columns selected by `getStoresByUser`). -/
structure StoreRow where
  user_id : String
  id : String
  display_name : Option String
  document_count : Option Nat
deriving Repr, DecidableEq

/-- The store shape `getStoresByUser` maps rows to. -/
structure Store where
  id : String
  displayName : String
  documentCount : Nat
deriving Repr, DecidableEq

/-- `{ id: r.id, displayName: r.display_name || r.id, documentCount: r.document_count || 0 }` -/
def Store.ofRow (r : StoreRow) : Store :=
  { id := r.id
  , displayName := (jsOrStr r.display_name (some r.id)).getD r.id
  , documentCount := r.document_count.getD 0 }

/-- A row of the `documents` table (columns selected by `getDocumentsByUser`,
plus the `deleted_at` column written by `delete_document`). -/
structure DocRow where
  user_id : String
  id : String
  display_name : Option String
  original_filename : Option String
  store_id : String
  mime_type : Option String
  deleted_at : Option Nat
deriving Repr, DecidableEq

/-- A row of the `user_settings` table. -/
structure SettingsRow where
  user_id : String
  active_store_id : Option String
  active_model : Option String
  system_prompt : Option String
deriving Repr, DecidableEq

/-- The projection `getUserSettings` selects. -/
structure Settings where
  active_store_id : Option String
  active_model : Option String
  system_prompt : Option String
deriving Repr, DecidableEq

def SettingsRow.proj (r : SettingsRow) : Settings :=
  ⟨r.active_store_id, r.active_model, r.system_prompt⟩

/-- A row of the `mcp_api_keys` table. -/
structure KeyRow where
  id : String
  key_value : String
  user_id : String
  is_active : Bool
deriving Repr, DecidableEq

/-- The backing database.  List order models the `order=` clause of each
query (`stores` by `created_at desc`, `documents` by `uploaded_at desc`). -/
structure DB where
  stores : List StoreRow
  documents : List DocRow
  user_settings : List SettingsRow
  mcp_api_keys : List KeyRow
deriving Repr, DecidableEq

/-! ## Upstream (Gemini) model -/

structure WebRef where
  uri : String
  title : Option String
deriving Repr, DecidableEq

structure RetrievedRef where
  uri : String
  title : Option String
deriving Repr, DecidableEq

/-- One grounding chunk of `candidates[0].groundingMetadata.groundingChunks`. -/
structure Chunk where
  web : Option WebRef
  retrievedContext : Option RetrievedRef
deriving Repr, DecidableEq

/-- What `ragQuery` passes to `ai.models.generateContent` (the history the
code prepends is always `[]` at its call sites, so it is omitted). -/
structure GenRequest where
  query : String
  storeNames : List String
  model : String
  systemPrompt : Option String
deriving Repr, DecidableEq

/-- The parts of the generate-content response the code reads:
`response.text` and `response.candidates?.[0]?.groundingMetadata?.groundingChunks`. -/
structure GenResponse where
  text : Option String
  groundingChunks : Option (List Chunk)
deriving Repr, DecidableEq

/-- Oracles for the two upstream Gemini operations the gateway performs.
`deleteDoc` returns `.error msg` to model a thrown error whose `message` is `msg`. -/
structure Upstream where
  generate : GenRequest → GenResponse
  deleteDoc : String → Except String Unit

/-! ## Sessions, caches, server state -/

/-- The per-session record stored in the `sessions` map
(`{ transport, server, userId, token, establishedAt }`; the transport and
server handles are opaque and carry no data the handlers read). -/
structure SessionInfo where
  userId : Option String
  token : String
  establishedAt : Nat
deriving Repr, DecidableEq

/-- An `authCache` entry: `token → { userId, expiresAt }`. -/
structure AuthEntry where
  userId : String
  expiresAt : Nat
deriving Repr, DecidableEq

/-- A `settingsCache` entry: `userId → { data, expiresAt }`. -/
structure SettingsEntry where
  data : Option Settings
  expiresAt : Nat
deriving Repr, DecidableEq

def AUTH_CACHE_TTL_MS : Nat := 60000
def SETTINGS_CACHE_TTL_MS : Nat := 30000

/-- The mutable process state visible to the request path. `dbConfigured`
models `SUPABASE_URL && SUPABASE_ANON` being set; `now` is `Date.now()`. -/
structure AppState where
  dbConfigured : Bool
  db : DB
  authCache : List (String × AuthEntry)
  settingsCache : List (String × SettingsEntry)
  sessions : List (String × SessionInfo)
  now : Nat
  upstream : Upstream

/-- External calls a request makes, recorded as a trace. -/
inductive ExtCall
  | sbGet (table : String)
  | sbPatch (table : String)
  | geminiGenerate
  | geminiDeleteDoc (name : String)
deriving Repr, DecidableEq

/-! ## The request monad: state passing plus a trace of external calls -/

def M (α : Type) : Type := AppState → α × AppState × List ExtCall

def M.pure {α : Type} (a : α) : M α := fun s => (a, s, [])

def M.bind {α β : Type} (m : M α) (f : α → M β) : M β := fun s =>
  let r := m s
  let r' := f r.1 r.2.1
  (r'.1, r'.2.1, r.2.2 ++ r'.2.2)

instance : Monad M where
  pure := M.pure
  bind := M.bind

def M.get : M AppState := fun s => (s, s, [])

def M.setSt (s' : AppState) : M Unit := fun _ => ((), s', [])

@[simp] theorem M.bind_apply {α β : Type} (m : M α) (f : α → M β) (s : AppState) :
    (m >>= f) s =
      ((f (m s).1 (m s).2.1).1, (f (m s).1 (m s).2.1).2.1,
        (m s).2.2 ++ (f (m s).1 (m s).2.1).2.2) := rfl

@[simp] theorem M.pure_apply {α : Type} (a : α) (s : AppState) :
    (Pure.pure (f := M) a) s = (a, s, []) := rfl

@[simp] theorem M.get_apply (s : AppState) : M.get s = (s, s, []) := rfl

@[simp] theorem M.setSt_apply (s s' : AppState) : M.setSt s' s = ((), s', []) := rfl

/-! ## Supabase helpers (`sbFetch` / `sbPatch`) -/

/-- One `sbFetch` REST read: answered from the database oracle when
configured; in no-DB mode `sbFetch` returns `null` without any call. -/
def sbGetRows {α : Type} (table : String) (q : DB → List α) : M (Option (List α)) :=
  fun st =>
    if st.dbConfigured then (some (q st.db), st, [ExtCall.sbGet table])
    else (none, st, [])

/-- The row update `active_store_id := storeId` on every row with `user_id = uid`. -/
def patchActive (rows : List SettingsRow) (uid storeId : String) : List SettingsRow :=
  rows.map fun r => if r.user_id = uid then { r with active_store_id := some storeId } else r

/-- `sbPatch("user_settings", { user_id }, { active_store_id })`. -/
def sbPatchUserSettingsActiveStore (uid storeId : String) : M Unit := fun st =>
  if st.dbConfigured then
    ((), { st with db := { st.db with user_settings := patchActive st.db.user_settings uid storeId } },
      [ExtCall.sbPatch "user_settings"])
  else ((), st, [])

/-- The row update `deleted_at := now` on every row with `id = docId` and `user_id = uid`. -/
def markDeleted (rows : List DocRow) (docId uid : String) (now : Nat) : List DocRow :=
  rows.map fun d => if d.id = docId ∧ d.user_id = uid then { d with deleted_at := some now } else d

/-- `sbPatch("documents", { id, user_id }, { deleted_at })`. -/
def sbPatchDocumentDeleted (docId uid : String) : M Unit := fun st =>
  if st.dbConfigured then
    ((), { st with db := { st.db with documents := markDeleted st.db.documents docId uid st.now } },
      [ExtCall.sbPatch "documents"])
  else ((), st, [])

/-- The fire-and-forget `sbPatch("mcp_api_keys", { id }, { last_used_at })`:
only the dispatched call matters (its failure is swallowed). -/
def sbPatchKeyLastUsed : M Unit := fun st =>
  if st.dbConfigured then ((), st, [ExtCall.sbPatch "mcp_api_keys"]) else ((), st, [])

/-! ## Auth resolver (`resolveUser`) -/

structure ResolveOut where
  userId : Option String
  valid : Bool
deriving Repr, DecidableEq

/-- The filtered lookup `key_value=eq.<token>&is_active=eq.true&limit=1`. -/
def keyQuery (token : String) (db : DB) : List KeyRow :=
  (db.mcp_api_keys.filter (fun r => r.key_value = token && r.is_active)).take 1

/-- The cache-miss path of `resolveUser`: JWT-shape guard, backend lookup,
cache population, fire-and-forget last-used patch. -/
def resolveUserFresh (bearerToken : String) : M ResolveOut := do
  if strHasPrefix "eyJ" bearerToken then M.pure ⟨none, false⟩
  else do
    let rows ← sbGetRows "mcp_api_keys" (keyQuery bearerToken)
    match (rows.getD []).head? with
    | none => M.pure ⟨none, false⟩
    | some row => do
        let st ← M.get
        let cache' := mset st.authCache bearerToken ⟨row.user_id, st.now + AUTH_CACHE_TTL_MS⟩
        M.setSt { st with authCache := cache' }
        sbPatchKeyLastUsed
        M.pure ⟨some row.user_id, true⟩

/-- `resolveUser(bearerToken)`: empty token, no-DB mode, cache consult
(strict `expiresAt > Date.now()`), then the fresh path. -/
def resolveUser (bearerToken : String) : M ResolveOut := do
  if bearerToken = "" then M.pure ⟨none, false⟩
  else do
    let st ← M.get
    if st.dbConfigured then
      match mget st.authCache bearerToken with
      | some cached =>
          if st.now < cached.expiresAt then M.pure ⟨some cached.userId, true⟩
          else resolveUserFresh bearerToken
      | none => resolveUserFresh bearerToken
    else M.pure ⟨none, true⟩

/-! ## User settings (`getUserSettings`, cache, `setActiveStore`) -/

/-- The `user_settings` query of `getUserSettings` (`limit=1`). -/
def settingsQuery (uid : String) (db : DB) : List SettingsRow :=
  (db.user_settings.filter (fun r => r.user_id = uid)).take 1

/-- The fetch-and-repopulate tail of `getUserSettings`. -/
def fetchAndCacheSettings (uid : String) : M (Option Settings) := do
  let rows ← sbGetRows "user_settings" (settingsQuery uid)
  let data := ((rows.getD []).head?).map SettingsRow.proj
  let st ← M.get
  let cache' := mset st.settingsCache uid ⟨data, st.now + SETTINGS_CACHE_TTL_MS⟩
  M.setSt { st with settingsCache := cache' }
  M.pure data

/-- `getUserSettings(userId)`: null guard, cache consult with strict
expiry, then fetch and repopulate. -/
def getUserSettings (userId : Option String) : M (Option Settings) := do
  match jsTruthyStr userId with
  | none => M.pure none
  | some uid => do
    let st ← M.get
    match mget st.settingsCache uid with
    | some cached =>
        if st.now < cached.expiresAt then M.pure cached.data
        else fetchAndCacheSettings uid
    | none => fetchAndCacheSettings uid

/-- `invalidateSettingsCache(userId)`: `settingsCache.delete(userId)`. -/
def invalidateSettingsCache (uid : String) : M Unit := do
  let st ← M.get
  M.setSt { st with settingsCache := mdel st.settingsCache uid }

/-- `setActiveStore(userId, storeId)`: guard, patch, synchronous invalidate. -/
def setActiveStore (userId storeId : Option String) : M Unit := do
  match jsTruthyStr userId, jsTruthyStr storeId with
  | some uid, some sid => do
      sbPatchUserSettingsActiveStore uid sid
      invalidateSettingsCache uid
  | _, _ => M.pure ()

/-! ## Store and document helpers -/

/-- `getStoresByUser(userId)`: the `stores` query mapped to `Store`s. -/
def getStoresByUser (userId : String) : M (List Store) := do
  let rows ← sbGetRows "stores" (fun db => db.stores.filter (fun r => r.user_id = userId))
  M.pure ((rows.getD []).map Store.ofRow)

/-- The predicate inside `findStoreByUser`'s single `find` call:
`s.id.toLowerCase() === q || s.displayName.toLowerCase() === q ||
 s.displayName.toLowerCase().includes(q)`. -/
def storeMatches (q : String) (s : Store) : Bool :=
  strLower s.id = q || strLower s.displayName = q || strIncludes (strLower s.displayName) q

/-- The pure core of `findStoreByUser`: one pass of `Array.prototype.find`
over the store list with the disjunctive predicate. -/
def findStoreInList (stores : List Store) (identifier : String) : Option Store :=
  stores.find? (storeMatches (strLower identifier))

/-- `findStoreByUser(userId, identifier)`. -/
def findStoreByUser (userId identifier : String) : M (Option Store) := do
  let stores ← getStoresByUser userId
  M.pure (findStoreInList stores identifier)

/-- Modelled from the spec (not from the source): the store-resolution rule
as the spec words it — "exact-id, exact-display-name, or case-insensitive
substring match against the tenant's stores, in that priority order; first
match wins".  Used only to compare against `findStoreInList`. -/
def findStoreSpecOrdered (stores : List Store) (identifier : String) : Option Store :=
  let q := strLower identifier
  match stores.find? (fun s => strLower s.id = q) with
  | some s => some s
  | none =>
    match stores.find? (fun s => strLower s.displayName = q) with
    | some s => some s
    | none => stores.find? (fun s => strIncludes (strLower s.displayName) q)

/-- `toStoreName(id)`. -/
def toStoreName (id : String) : String :=
  if strHasPrefix "fileSearchStores/" id then id else "fileSearchStores/" ++ id

/-- `getDocumentsByUser(userId, storeId, limit)`. -/
def getDocumentsByUser (userId : String) (storeId : Option String) (limit : Nat) :
    M (List DocRow) := do
  let rows ← sbGetRows "documents" (fun db =>
    (db.documents.filter (fun d =>
      d.user_id = userId &&
        (match jsTruthyStr storeId with
         | some sid => d.store_id = sid
         | none => true))).take (min limit 500))
  M.pure (rows.getD [])

/-! ## RAG query and citation rendering (`ragQuery`) -/

/-- JS `s.split("/").pop()`. -/
def lastSegment (s : String) : String :=
  String.mk (((splitOnChar s.data (Char.ofNat 47)).getLast?).getD [])

/-- The line appended for a web grounding chunk:
`\n- ${chunk.web.title || chunk.web.uri} (${chunk.web.uri})`. -/
def webLine (w : WebRef) : String :=
  "\n- " ++ (match jsTruthyStr w.title with | some t => t | none => w.uri)
    ++ " (" ++ w.uri ++ ")"

/-- The line appended for a retrieved-context grounding chunk:
`\n- ${chunk.retrievedContext.title || chunk.retrievedContext.uri.split("/").pop()}`. -/
def rcLine (r : RetrievedRef) : String :=
  "\n- " ++ (match jsTruthyStr r.title with | some t => t | none => lastSegment r.uri)

/-- The citation loop of `ragQuery`, threading the `seen` set.  Returns the
appended lines and, in parallel, the source identifiers (URIs) they were
emitted for.  Mirrors
`if (chunk.web?.uri && !seen.has(...)) {...} else if (chunk.retrievedContext?.uri && !seen.has(...)) {...}`. -/
def sourcesGo : List Chunk → List String → List String × List String
  | [], _ => ([], [])
  | c :: rest, seen =>
    match c.web, c.retrievedContext with
    | some w, rc =>
        if w.uri ≠ "" ∧ w.uri ∉ seen then
          let p := sourcesGo rest (w.uri :: seen)
          (webLine w :: p.1, w.uri :: p.2)
        else
          match rc with
          | some r =>
              if r.uri ≠ "" ∧ r.uri ∉ seen then
                let p := sourcesGo rest (r.uri :: seen)
                (rcLine r :: p.1, r.uri :: p.2)
              else sourcesGo rest seen
          | none => sourcesGo rest seen
    | none, some r =>
        if r.uri ≠ "" ∧ r.uri ∉ seen then
          let p := sourcesGo rest (r.uri :: seen)
          (rcLine r :: p.1, r.uri :: p.2)
        else sourcesGo rest seen
    | none, none => sourcesGo rest seen

/-- `ragQuery({query, storeNames, model, systemPrompt})`: one upstream
generate call, `(No response)` fallback, then the appended `Sources` block
when grounding chunks are present. -/
def ragQuery (query : String) (storeNames : List String) (model : String)
    (systemPrompt : Option String) : M String := fun st =>
  let resp := st.upstream.generate ⟨query, storeNames, model, systemPrompt⟩
  let base := (jsTruthyStr resp.text).getD "(No response)"
  let text :=
    match resp.groundingChunks with
    | some cs =>
        if cs.length ≠ 0 then base ++ "\n\nSources:" ++ String.join (sourcesGo cs []).1
        else base
    | none => base
  (text, st, [ExtCall.geminiGenerate])

/-- The Gemini `fileSearchStores.documents.delete({ name })` call. -/
def geminiDeleteDocCall (name : String) : M (Except String Unit) := fun st =>
  (st.upstream.deleteDoc name, st, [ExtCall.geminiDeleteDoc name])

/-! ## Tool results, session resolution, handlers -/

/-- `{ content: [{ type: "text", text }] }` collapsed to its text. -/
structure ToolResult where
  text : String
deriving Repr, DecidableEq

/-- `ok(text)`. -/
def ok (t : String) : ToolResult := ⟨t⟩

/-- `err(e)` (for string arguments: `Error: ${e}`). -/
def errR (e : String) : ToolResult := ⟨"Error: " ++ e⟩

/-- The `extra` object a handler receives: `{ transport: { sessionId } }`. -/
structure Extra where
  sessionId : Option String
deriving Repr, DecidableEq

/-- `resolveSessionFromExtra(extra)`. -/
def resolveSessionFromExtra (st : AppState) (extra : Extra) : Option SessionInfo :=
  match jsTruthyStr extra.sessionId with
  | none => none
  | some sid => mget st.sessions sid

/-- `resolveUserIdFromExtra(extra)`: `resolveSessionFromExtra(extra)?.userId ?? null`. -/
def resolveUserIdFromExtra (st : AppState) (extra : Extra) : Option String :=
  (resolveSessionFromExtra st extra).bind (fun s => s.userId)

/-- The shared handler prologue
`const userId = resolveUserIdFromExtra(extra); if (!userId) return err("No user session found.");`. -/
def guardUser (extra : Extra) (body : String → M ToolResult) : M ToolResult := fun st =>
  match jsTruthyStr (resolveUserIdFromExtra st extra) with
  | none => (errR "No user session found.", st, [])
  | some uid => body uid st

/-- The `get_document_link` prologue, which keeps the whole session record
(`if (!session?.userId) return err(...)`). -/
def guardSession (extra : Extra) (body : SessionInfo → String → M ToolResult) :
    M ToolResult := fun st =>
  match resolveSessionFromExtra st extra with
  | some s =>
      match jsTruthyStr s.userId with
      | some uid => body s uid st
      | none => (errR "No user session found.", st, [])
  | none => (errR "No user session found.", st, [])

/-- `d.display_name || d.original_filename || d.id`. -/
def docLabel (d : DocRow) : String :=
  (jsOrStr d.display_name (jsOrStr d.original_filename (some d.id))).getD d.id

/-- The model argument resolution `model || settings?.active_model || "gemini-2.5-flash"`. -/
def resolveModel (model : Option String) (settings : Option Settings) : String :=
  (jsOrStr model (settings.bind (fun s => s.active_model))).getD "gemini-2.5-flash"

/-- `settings?.system_prompt || undefined`. -/
def resolvePrompt (settings : Option Settings) : Option String :=
  jsTruthyStr (settings.bind (fun s => s.system_prompt))

/-- Tool 1: `chat`. -/
def chatHandler (args : JObj) (extra : Extra) : M ToolResult :=
  guardUser extra fun userId => do
    let message := (args.getStr "message").getD ""
    let storeId := args.getStr "storeId"
    let model := args.getStr "model"
    let settings ← getUserSettings (some userId)
    match jsOrStr storeId (settings.bind (fun s => s.active_store_id)) with
    | none => M.pure (errR "⚠️ No active store set. Use set_active_store first.")
    | some rid => do
      let store? ← findStoreByUser userId rid
      match store? with
      | none => M.pure (errR ("Store \"" ++ rid ++ "\" not found or not accessible."))
      | some store => do
        let answer ← ragQuery message [toStoreName store.id]
          (resolveModel model settings) (resolvePrompt settings)
        M.pure (ok answer)

/-- Tool 2: `chat_with_store`. -/
def chatWithStoreHandler (args : JObj) (extra : Extra) : M ToolResult :=
  guardUser extra fun userId => do
    let message := (args.getStr "message").getD ""
    let storeId := (args.getStr "storeId").getD ""
    let model := args.getStr "model"
    let store? ← findStoreByUser userId storeId
    match store? with
    | none => M.pure (errR ("Store \"" ++ storeId ++ "\" not found."))
    | some store => do
      let settings ← getUserSettings (some userId)
      let answer ← ragQuery message [toStoreName store.id]
        (resolveModel model settings) (resolvePrompt settings)
      M.pure (ok answer)

/-- Tool 3: `chat_all_stores`. -/
def chatAllStoresHandler (args : JObj) (extra : Extra) : M ToolResult :=
  guardUser extra fun userId => do
    let message := (args.getStr "message").getD ""
    let model := args.getStr "model"
    let stores ← getStoresByUser userId
    if stores.isEmpty then
      M.pure (errR "No stores found. Create a store and upload files first.")
    else do
      let settings ← getUserSettings (some userId)
      let answer ← ragQuery message (stores.map (fun s => toStoreName s.id))
        (resolveModel model settings) (resolvePrompt settings)
      M.pure (ok answer)

/-- Tool 4: `list_stores` (`Promise.all` of the two reads, serialised). -/
def listStoresHandler (_args : JObj) (extra : Extra) : M ToolResult :=
  guardUser extra fun userId => do
    let stores ← getStoresByUser userId
    let settings ← getUserSettings (some userId)
    if stores.isEmpty then M.pure (ok "No stores found. Create a store in the web UI first.")
    else do
      let activeId := settings.bind (fun s => s.active_store_id)
      let lines := stores.map fun s =>
        (if some s.id = activeId then "★ " else "  ") ++ s.displayName ++ "  ("
          ++ toString s.documentCount ++ " docs)\n   ID: " ++ s.id
      M.pure (ok (toString stores.length ++ " store(s) — ★ = active:\n\n"
        ++ String.intercalate "\n\n" lines))

/-- Tool 5: `get_active_store`. -/
def getActiveStoreHandler (_args : JObj) (extra : Extra) : M ToolResult :=
  guardUser extra fun userId => do
    let settings ← getUserSettings (some userId)
    match jsTruthyStr (settings.bind (fun s => s.active_store_id)) with
    | none => M.pure (ok "No active store set. Use set_active_store.")
    | some activeId => do
      let stores ← getStoresByUser userId
      let store? := stores.find? (fun s => s.id = activeId)
      let nameTxt := (jsOrStr (store?.map (fun s => s.displayName)) (some activeId)).getD activeId
      M.pure (ok ("Active store: " ++ nameTxt ++ "\nID: " ++ activeId))

/-- Tool 6: `set_active_store`. -/
def setActiveStoreHandler (args : JObj) (extra : Extra) : M ToolResult :=
  guardUser extra fun userId => do
    let storeId := (args.getStr "storeId").getD ""
    let store? ← findStoreByUser userId storeId
    match store? with
    | none => M.pure (errR ("Store \"" ++ storeId ++ "\" not found."))
    | some store => do
      setActiveStore (some userId) (some store.id)
      M.pure (ok ("✅ Active store set to: " ++ store.displayName ++ " (" ++ store.id ++ ")"))

/-- Tool 7: `list_documents`. -/
def listDocumentsHandler (args : JObj) (extra : Extra) : M ToolResult :=
  guardUser extra fun userId => do
    let storeId := args.getStr "storeId"
    let limit := args.getNum "limit"
    let settings ← getUserSettings (some userId)
    match jsOrStr storeId (settings.bind (fun s => s.active_store_id)) with
    | none => M.pure (errR "No storeId provided and no active store is set.")
    | some resolvedId => do
      let store? ← findStoreByUser userId resolvedId
      match store? with
      | none => M.pure (errR ("Store \"" ++ resolvedId ++ "\" not found."))
      | some store => do
        let lim : Nat := (match limit with
          | some n => if n = 0 then (50 : Int) else n
          | none => 50).toNat
        let docs ← getDocumentsByUser userId (some store.id) lim
        if docs.isEmpty then
          M.pure (ok ("Store \"" ++ store.displayName ++ "\" has no documents yet."))
        else do
          let lines := docs.enum.map fun p =>
            toString (p.1 + 1) ++ ". " ++ docLabel p.2 ++ "\n   ID: " ++ p.2.id
          M.pure (ok (toString docs.length ++ " document(s) in \"" ++ store.displayName
            ++ "\":\n\n" ++ String.intercalate "\n\n" lines))

/-- Tool 8: `summarize`. -/
def summarizeHandler (args : JObj) (extra : Extra) : M ToolResult :=
  guardUser extra fun userId => do
    let storeId := args.getStr "storeId"
    let focus := args.getStr "focus"
    let model := args.getStr "model"
    let settings ← getUserSettings (some userId)
    match jsOrStr storeId (settings.bind (fun s => s.active_store_id)) with
    | none => M.pure (errR "No active store set.")
    | some resolvedId => do
      let store? ← findStoreByUser userId resolvedId
      match store? with
      | none => M.pure (errR ("Store \"" ++ resolvedId ++ "\" not found."))
      | some store => do
        let prompt := match jsTruthyStr focus with
          | some f => "Provide a comprehensive summary of the documents, focusing specifically on: " ++ f
          | none => "Provide a comprehensive summary of all documents in this knowledge base."
        let answer ← ragQuery prompt [toStoreName store.id]
          (resolveModel model settings) (resolvePrompt settings)
        M.pure (ok answer)

/-- `✅ Deleted: ${doc.display_name || doc.original_filename || documentId}`. -/
def deletedText (doc : DocRow) (documentId : String) : String :=
  "✅ Deleted: "
    ++ (jsOrStr doc.display_name (jsOrStr doc.original_filename (some documentId))).getD documentId

/-- Tool 9: `delete_document`. -/
def deleteDocumentHandler (args : JObj) (extra : Extra) : M ToolResult :=
  guardUser extra fun userId => do
    let documentId := (args.getStr "documentId").getD ""
    let storeId := args.getStr "storeId"
    let settings ← getUserSettings (some userId)
    match jsOrStr storeId (settings.bind (fun s => s.active_store_id)) with
    | none => M.pure (errR "Store ID required.")
    | some resolvedId => do
      let docs ← getDocumentsByUser userId (some resolvedId) 500
      match docs.find? (fun d => d.id = documentId) with
      | none => M.pure (errR ("Document \"" ++ documentId
          ++ "\" not found in your store. Use list_documents to see available IDs."))
      | some doc => do
        let docGeminiName := toStoreName resolvedId ++ "/documents/" ++ documentId
        let delRes ← geminiDeleteDocCall docGeminiName
        match delRes with
        | Except.error m =>
            if strIncludes m "404" then do
              sbPatchDocumentDeleted documentId userId
              M.pure (ok (deletedText doc documentId))
            else M.pure (errR m)
        | Except.ok _ => do
            sbPatchDocumentDeleted documentId userId
            M.pure (ok (deletedText doc documentId))

/-- `NEXT_PUBLIC_APP_URL`'s default value. -/
def APP_URL : String := "https://rag.kokoit.com"

/-- The five-stage fallback document lookup of `get_document_link`:
exact id, exact display name, exact original filename, display-name
substring, original-filename substring (all on the lowercased query). -/
def findDocByQuery (docs : List DocRow) (q : String) : Option DocRow :=
  (docs.find? (fun d => strLower d.id = q)).orElse (fun _ =>
  (docs.find? (fun d => strLower (d.display_name.getD "") = q)).orElse (fun _ =>
  (docs.find? (fun d => strLower (d.original_filename.getD "") = q)).orElse (fun _ =>
  (docs.find? (fun d => strIncludes (strLower (d.display_name.getD "")) q)).orElse (fun _ =>
   docs.find? (fun d => strIncludes (strLower (d.original_filename.getD "")) q)))))

/-- Tool 10: `get_document_link`. -/
def getDocumentLinkHandler (args : JObj) (extra : Extra) : M ToolResult :=
  guardSession extra fun session userId => do
    let documentId := (args.getStr "documentId").getD ""
    let storeId := args.getStr "storeId"
    let sessionToken := session.token
    let settings ← getUserSettings (some userId)
    match jsOrStr storeId (settings.bind (fun s => s.active_store_id)) with
    | none => M.pure (errR "No store specified and no active store set. Use set_active_store first.")
    | some asId0 => do
      let store? ← findStoreByUser userId asId0
      match store? with
      | none => M.pure (errR ("Store \"" ++ asId0 ++ "\" not found."))
      | some store => do
        let activeStoreId := store.id
        let docs ← getDocumentsByUser userId (some activeStoreId) 500
        if docs.isEmpty then
          M.pure (errR ("No documents found in store \"" ++ store.displayName
            ++ "\". Upload some files first."))
        else do
          let q := strTrim (strLower documentId)
          match findDocByQuery docs q with
          | none =>
            let available := String.intercalate "\n" ((docs.take 10).map (fun d => "• " ++ docLabel d))
            M.pure (ok ("Document \"" ++ documentId ++ "\" not found in store \""
              ++ store.displayName ++ "\".\n\nAvailable documents (up to 10):\n" ++ available))
          | some doc => do
            let viewUrl := APP_URL ++ "/?tab=docs&storeId=" ++ activeStoreId ++ "&docId=" ++ doc.id
            let downloadUrl := APP_URL ++ "/api/stores/" ++ activeStoreId ++ "/documents/"
              ++ doc.id ++ "/download?token=" ++ sessionToken
            M.pure (ok ("📄 " ++ docLabel doc ++ "\n\nView:     " ++ viewUrl
              ++ "\nDownload: " ++ downloadUrl))

/-- The `(name, description)` pairs of the ten non-help tools, in
registration order (used by `help`'s static enumeration). -/
def toolMetaList : List (String × String) :=
  [ ("chat", "Chat with your documents. Ask a question and get an answer grounded in your uploaded files.")
  , ("chat_with_store", "Chat with documents in a specific store by its ID or display name.")
  , ("chat_all_stores", "Ask a question and search across ALL of your document stores simultaneously.")
  , ("list_stores", "List all your document stores with their IDs and document counts.")
  , ("get_active_store", "Returns the currently active document store for this account.")
  , ("set_active_store", "Set the active document store by ID or display name.")
  , ("list_documents", "List the documents uploaded to a store.")
  , ("summarize", "Generate a summary of all documents in a store.")
  , ("delete_document", "Permanently delete a document from a store. The document must belong to your account.")
  , ("get_document_link", "Generates a view URL and a download link for a document. Accepts document name or ID.") ]

/-- Tool 11: `help`. -/
def helpHandler (_args : JObj) (_extra : Extra) : M ToolResult :=
  M.pure (ok ("Gemini RAG MCP v2.2\n\nTools:\n"
    ++ String.intercalate "\n" (toolMetaList.map (fun p => "  • " ++ p.1 ++ " — " ++ p.2))))

/-! ## Argument schemas and the generic validator (zod object parse) -/

/-- A zod field descriptor as used by the gateway's schemas:
`z.string()` with an optional `.min`, or `z.number().int().min(..).max(..)`
(numbers are modelled as integers, so the separate `.int()` refinement is
absorbed by the representation). -/
inductive FieldKind
  | fstr (minLen : Option Nat)
  | fint (lo hi : Option Int)
deriving Repr, DecidableEq

structure FieldSpec where
  fname : String
  kind : FieldKind
  required : Bool
deriving Repr, DecidableEq

/-- One zod issue: its (joined) path and message. -/
structure Issue where
  path : String
  message : String
deriving Repr, DecidableEq

/-- All issues a single present field raises (zod runs every check). -/
def checkKind (k : FieldKind) (p : String) (v : JVal) : List Issue :=
  match k, v with
  | FieldKind.fstr ml, JVal.jstr s =>
      (match ml with
       | some m => if s.length < m then
           [⟨p, "String must contain at least " ++ toString m ++ " character(s)"⟩] else []
       | none => [])
  | FieldKind.fstr _, _ => [⟨p, "Expected string"⟩]
  | FieldKind.fint lo hi, JVal.jnum n =>
      (match lo with
       | some l => if n < l then
           [⟨p, "Number must be greater than or equal to " ++ toString l⟩] else []
       | none => []) ++
      (match hi with
       | some h => if h < n then
           [⟨p, "Number must be less than or equal to " ++ toString h⟩] else []
       | none => [])
  | FieldKind.fint _ _, _ => [⟨p, "Expected number"⟩]

/-- Issues for one declared field: missing required field, or the kind checks. -/
def validateField (o : JObj) (f : FieldSpec) : List Issue :=
  match mget o f.fname with
  | none => if f.required then [⟨f.fname, "Required"⟩] else []
  | some v => checkKind f.kind f.fname v

/-- `schema.parse(args)`'s collected issue list: zod's object parser
validates every declared key and aggregates all issues (unknown keys are
stripped silently). -/
def validateArgs (schema : List FieldSpec) (o : JObj) : List Issue :=
  (schema.map (validateField o)).flatten

/-- A registry entry: `{ name, description, schema, handler }`. -/
structure Tool where
  name : String
  description : String
  schema : List FieldSpec
  handler : JObj → Extra → M ToolResult

/-- Registry entry 1. -/
def chatTool : Tool :=
  { name := "chat"
  , description := "Chat with your documents. Ask a question and get an answer grounded in your uploaded files."
  , schema := [⟨"message", FieldKind.fstr (some 1), true⟩, ⟨"storeId", FieldKind.fstr none, false⟩,
               ⟨"model", FieldKind.fstr none, false⟩]
  , handler := chatHandler }

/-- Registry entry 2. -/
def chatWithStoreTool : Tool :=
  { name := "chat_with_store"
  , description := "Chat with documents in a specific store by its ID or display name."
  , schema := [⟨"message", FieldKind.fstr (some 1), true⟩, ⟨"storeId", FieldKind.fstr none, true⟩,
               ⟨"model", FieldKind.fstr none, false⟩]
  , handler := chatWithStoreHandler }

/-- Registry entry 3. -/
def chatAllStoresTool : Tool :=
  { name := "chat_all_stores"
  , description := "Ask a question and search across ALL of your document stores simultaneously."
  , schema := [⟨"message", FieldKind.fstr (some 1), true⟩, ⟨"model", FieldKind.fstr none, false⟩]
  , handler := chatAllStoresHandler }

/-- Registry entry 4. -/
def listStoresTool : Tool :=
  { name := "list_stores"
  , description := "List all your document stores with their IDs and document counts."
  , schema := []
  , handler := listStoresHandler }

/-- Registry entry 5. -/
def getActiveStoreTool : Tool :=
  { name := "get_active_store"
  , description := "Returns the currently active document store for this account."
  , schema := []
  , handler := getActiveStoreHandler }

/-- Registry entry 6. -/
def setActiveStoreTool : Tool :=
  { name := "set_active_store"
  , description := "Set the active document store by ID or display name."
  , schema := [⟨"storeId", FieldKind.fstr none, true⟩]
  , handler := setActiveStoreHandler }

/-- Registry entry 7. -/
def listDocumentsTool : Tool :=
  { name := "list_documents"
  , description := "List the documents uploaded to a store."
  , schema := [⟨"storeId", FieldKind.fstr none, false⟩, ⟨"limit", FieldKind.fint (some 1) (some 200), false⟩]
  , handler := listDocumentsHandler }

/-- Registry entry 8. -/
def summarizeTool : Tool :=
  { name := "summarize"
  , description := "Generate a summary of all documents in a store."
  , schema := [⟨"storeId", FieldKind.fstr none, false⟩, ⟨"focus", FieldKind.fstr none, false⟩,
               ⟨"model", FieldKind.fstr none, false⟩]
  , handler := summarizeHandler }

/-- Registry entry 9. -/
def deleteDocumentTool : Tool :=
  { name := "delete_document"
  , description := "Permanently delete a document from a store. The document must belong to your account."
  , schema := [⟨"documentId", FieldKind.fstr none, true⟩, ⟨"storeId", FieldKind.fstr none, false⟩]
  , handler := deleteDocumentHandler }

/-- Registry entry 10. -/
def getDocumentLinkTool : Tool :=
  { name := "get_document_link"
  , description := "Generates a view URL and a download link for a document. Accepts document name or ID."
  , schema := [⟨"documentId", FieldKind.fstr none, true⟩, ⟨"storeId", FieldKind.fstr none, false⟩]
  , handler := getDocumentLinkHandler }

/-- Registry entry 11. -/
def helpTool : Tool :=
  { name := "help"
  , description := "Show available tools and usage."
  , schema := []
  , handler := helpHandler }

/-- The tool registry, in registration order. -/
def registry : List Tool :=
  [chatTool, chatWithStoreTool, chatAllStoresTool, listStoresTool, getActiveStoreTool,
   setActiveStoreTool, listDocumentsTool, summarizeTool, deleteDocumentTool,
   getDocumentLinkTool, helpTool]

/-- The registered `(name, description)` pairs with `help` filtered out
agree with the static list `help` renders. -/
theorem toolMetaList_matches_registry :
    (registry.filter (fun t => t.name ≠ "help")).map (fun t => (t.name, t.description))
      = toolMetaList := by
  unfold registry chatTool chatWithStoreTool chatAllStoresTool listStoresTool getActiveStoreTool
  unfold setActiveStoreTool listDocumentsTool summarizeTool deleteDocumentTool getDocumentLinkTool helpTool
  rfl

/-- `${x.path.join(".")}: ${x.message}` for one issue. -/
def renderIssue (i : Issue) : String := i.path ++ ": " ++ i.message

/-- `array.join(", ")` over the rendered issues. -/
def joinIssues : List Issue → String
  | [] => ""
  | [i] => renderIssue i
  | i :: rest => renderIssue i ++ ", " ++ joinIssues rest

/-- The per-session `CallToolRequestSchema` handler: registry lookup
(`Unknown tool` protocol error), zod argument validation (protocol error
enumerating every issue), then the tool handler with
`{ transport: { sessionId } }`.  `Except.error` models an error thrown to
the protocol layer (wrapped by the SDK as a JSON-RPC error); `Except.ok`
models an in-band content result. -/
def callTool (name : String) (rawArgs : JObj) (sid : Option String) :
    M (Except String ToolResult) := fun st =>
  match registry.find? (fun t => t.name = name) with
  | none => (Except.error ("Unknown tool: " ++ name), st, [])
  | some t =>
      let issues := validateArgs t.schema rawArgs
      if issues.isEmpty then
        let r := t.handler rawArgs ⟨sid⟩ st
        (Except.ok r.1, r.2.1, r.2.2)
      else
        (Except.error ("Invalid arguments: " ++ joinIssues issues), st, [])

/-! ## Gateway layer: session lifecycle (`handleSse`), heartbeats, teardown

The per-connection plumbing of `handleSse`, as a state machine.  Each
connection has an HTTP response stream (`writableEnded` flag) and a
heartbeat timer (`setInterval`, cleared via `clearInterval`); the session
map and the bounded session-history ring are shared.  Outputs record
heartbeat writes; a write on an ended stream is never attempted because
every write is guarded by `res.writableEnded`. -/

/-- Per-connection transport state: `res.writableEnded` and whether the
heartbeat interval is still scheduled. -/
structure Conn where
  writableEnded : Bool
  hbActive : Bool
deriving Repr, DecidableEq

/-- A `sessionHistory` record. -/
structure HistoryRec where
  sessionId : String
  userId : Option String
  established : Nat
  closedAt : Nat
deriving Repr, DecidableEq

def MAX_SESSION_HISTORY : Nat := 20

/-- Gateway state: the live `sessions` map, per-connection transport
state, and the bounded history ring. -/
structure GState where
  sessions : List (String × SessionInfo)
  conns : List (String × Conn)
  history : List HistoryRec
  now : Nat
deriving Repr, DecidableEq

/-- Observable outputs of a gateway step. -/
inductive GOut
  | hbWrite (sid : String)
  | errorThrown (sid : String)
deriving Repr, DecidableEq

/-- Events that touch the session map or a connection:
`open_` is the tail of `handleSse` (transport created, session registered
with the authenticated user and token); `toolCall` is a tool invocation
dispatched through the session's server (handlers read the session map but
never write it); `hbTick` is one firing of the 15 s heartbeat interval;
`streamEnd` marks the response stream becoming `writableEnded`;
`transportClose` is `transport.onclose`; `resClose` is the `res.on("close")`
handler. -/
inductive GEvent
  | open_ (sid : String) (userId : Option String) (token : String)
  | toolCall (sid : String)
  | hbTick (sid : String)
  | streamEnd (sid : String)
  | transportClose (sid : String)
  | resClose (sid : String)
deriving Repr, DecidableEq

/-- Registration in `handleSse`:
`sessions.set(sid, { transport, server, userId, token, establishedAt })`
plus a fresh heartbeat interval. -/
def gOpen (st : GState) (sid : String) (userId : Option String) (token : String) : GState :=
  { st with
    sessions := mset st.sessions sid ⟨userId, token, st.now⟩
    conns := mset st.conns sid ⟨false, true⟩ }

/-- One firing of the heartbeat interval:
`if (res.writableEnded) { clearInterval(heartbeat); return; } res.write(": heartbeat\n\n");`. -/
def gHbTick (st : GState) (sid : String) : GState × List GOut :=
  match mget st.conns sid with
  | none => (st, [])
  | some c =>
      if c.hbActive then
        if c.writableEnded then
          ({ st with conns := mset st.conns sid { c with hbActive := false } }, [])
        else (st, [GOut.hbWrite sid])
      else (st, [])

/-- `clearInterval(heartbeat)` on a connection's timer. -/
def clearHb (conns : List (String × Conn)) (sid : String) : List (String × Conn) :=
  match mget conns sid with
  | some c => mset conns sid { c with hbActive := false }
  | none => conns

/-- `transport.onclose`: clear the heartbeat, unshift a history record
(capped at `MAX_SESSION_HISTORY`) if the session is still live, delete it. -/
def gTransportClose (st : GState) (sid : String) : GState × List GOut :=
  match mget st.sessions sid with
  | some s =>
      ({ st with
          conns := clearHb st.conns sid
          history := (HistoryRec.mk sid s.userId s.establishedAt st.now :: st.history).take MAX_SESSION_HISTORY
          sessions := mdel st.sessions sid }, [])
  | none => ({ st with conns := clearHb st.conns sid }, [])

/-- The `res.on("close")` handler: if the session is still live, clear the
heartbeat and delete it (no history record on this path). -/
def gResClose (st : GState) (sid : String) : GState × List GOut :=
  match mget st.sessions sid with
  | some _ =>
      ({ st with conns := clearHb st.conns sid, sessions := mdel st.sessions sid }, [])
  | none => (st, [])

/-- The stream becoming `writableEnded` (client went away / `res.end()`). -/
def gStreamEnd (st : GState) (sid : String) : GState :=
  match mget st.conns sid with
  | some c => { st with conns := mset st.conns sid { c with writableEnded := true } }
  | none => st

/-- One gateway step.  A `toolCall` resolves its tenant through the
session map (`resolveUserIdFromExtra`) and runs a handler; no handler
writes the session map, so on this state it is the identity. -/
def gStep (st : GState) (e : GEvent) : GState × List GOut :=
  match e with
  | GEvent.open_ sid uid tok => (gOpen st sid uid tok, [])
  | GEvent.toolCall _ => (st, [])
  | GEvent.hbTick sid => gHbTick st sid
  | GEvent.streamEnd sid => (gStreamEnd st sid, [])
  | GEvent.transportClose sid => gTransportClose st sid
  | GEvent.resClose sid => gResClose st sid

/-- Run a trace of gateway events. -/
def gRun (st : GState) : List GEvent → GState
  | [] => st
  | e :: rest => gRun (gStep st e).1 rest

/-- Does this event register a (new) session under `sid`?  Session ids are
generated fresh by the SSE transport, so a live session's id is never
re-opened. -/
def GEvent.opensSid (e : GEvent) (sid : String) : Prop :=
  match e with
  | GEvent.open_ sid' _ _ => sid' = sid
  | _ => False

instance (e : GEvent) (sid : String) : Decidable (e.opensSid sid) := by
  cases e <;> simp [GEvent.opensSid] <;> infer_instance

/-- The session-map read a tool call uses to resolve its tenant, at the
gateway layer: `sessions.get(sessionId)?.userId ?? null`. -/
def gResolveUserId (st : GState) (sid : String) : Option String :=
  (mget st.sessions sid).bind (fun s => s.userId)

/-! ## Session-lifecycle lemmas -/

theorem gHbTick_sessions (st : GState) (x : String) :
    (gHbTick st x).1.sessions = st.sessions := by
  unfold gHbTick
  cases mget st.conns x with
  | none => rfl
  | some c =>
    by_cases h1 : c.hbActive
    · by_cases h2 : c.writableEnded
      · simp [h1, h2]
      · simp [h1, h2]
    · simp [h1]

theorem gStreamEnd_sessions (st : GState) (x : String) :
    (gStreamEnd st x).sessions = st.sessions := by
  unfold gStreamEnd
  cases mget st.conns x <;> rfl

theorem gTransportClose_sessions_sub (st : GState) (x sid : String) (s' : SessionInfo)
    (h : mget (gTransportClose st x).1.sessions sid = some s') :
    mget st.sessions sid = some s' := by
  unfold gTransportClose at h
  split at h
  · simp only at h
    by_cases hxx : x = sid
    · subst hxx
      rw [mget_mdel_self] at h
      cases h
    · rwa [mget_mdel_ne _ _ _ hxx] at h
  · exact h

theorem gResClose_sessions_sub (st : GState) (x sid : String) (s' : SessionInfo)
    (h : mget (gResClose st x).1.sessions sid = some s') :
    mget st.sessions sid = some s' := by
  unfold gResClose at h
  split at h
  · simp only at h
    by_cases hxx : x = sid
    · subst hxx
      rw [mget_mdel_self] at h
      cases h
    · rwa [mget_mdel_ne _ _ _ hxx] at h
  · exact h

/-- One step that does not (re)open `sid` can only keep `sid`'s entry
exactly as it is, or delete it. -/
theorem gStep_preserves_session (st : GState) (e : GEvent) (sid : String)
    (h : ¬ e.opensSid sid) (s' : SessionInfo)
    (hs' : mget (gStep st e).1.sessions sid = some s') :
    mget st.sessions sid = some s' := by
  cases e with
  | open_ sid' uid tok =>
      have hne : sid' ≠ sid := h
      simp only [gStep, gOpen] at hs'
      rwa [mget_mset_ne _ _ _ _ hne] at hs'
  | toolCall x => exact hs'
  | hbTick x => rwa [show (gStep st (GEvent.hbTick x)).1 = (gHbTick st x).1 from rfl,
      gHbTick_sessions] at hs'
  | streamEnd x => rwa [show (gStep st (GEvent.streamEnd x)).1 = gStreamEnd st x from rfl,
      gStreamEnd_sessions] at hs'
  | transportClose x => exact gTransportClose_sessions_sub st x sid s' hs'
  | resClose x => exact gResClose_sessions_sub st x sid s' hs'

theorem gRun_preserves_session (tr : List GEvent) (st : GState) (sid : String)
    (h : ∀ e ∈ tr, ¬ e.opensSid sid) (s' : SessionInfo)
    (hs' : mget (gRun st tr).sessions sid = some s') :
    mget st.sessions sid = some s' := by
  induction tr generalizing st with
  | nil => exact hs'
  | cons e rest ih =>
      exact gStep_preserves_session st e sid (h e (List.mem_cons_self e rest)) s'
        (ih (gStep st e).1 (fun e' he' => h e' (List.mem_cons_of_mem e he')) hs')

/-- C1.  While a session is live (its id, generated fresh by the transport,
is never re-opened), its `userId` is exactly the one written at
registration time; every tool call resolves its tenant through the session
map (`gResolveUserId`), so any two tool calls made at two points of the
session's lifetime resolve to the same tenant — the one fixed at creation. -/
theorem tenant_fixed_per_session (st : GState) (tr1 tr2 : List GEvent)
    (sid : String) (s : SessionInfo)
    (hlive : mget st.sessions sid = some s)
    (h1 : ∀ e ∈ tr1, ¬ e.opensSid sid)
    (h2 : ∀ e ∈ tr2, ¬ e.opensSid sid)
    (u1 u2 : String)
    (hr1 : gResolveUserId (gRun st tr1) sid = some u1)
    (hr2 : gResolveUserId (gRun (gRun st tr1) tr2) sid = some u2) :
    u1 = u2 ∧ s.userId = some u1 := by
  unfold gResolveUserId at hr1 hr2
  rcases Option.bind_eq_some.mp hr1 with ⟨s1, hs1, hu1⟩
  rcases Option.bind_eq_some.mp hr2 with ⟨s2, hs2, hu2⟩
  have hb1 : mget st.sessions sid = some s1 := gRun_preserves_session tr1 st sid h1 s1 hs1
  have hb2 : mget (gRun st tr1).sessions sid = some s2 := gRun_preserves_session tr2 _ sid h2 s2 hs2
  have hb2' : mget st.sessions sid = some s2 := gRun_preserves_session tr1 st sid h1 s2 hb2
  have e1 : s1 = s := by rw [hb1] at hlive; exact Option.some.inj hlive
  have e2 : s2 = s := by rw [hb2'] at hlive; exact Option.some.inj hlive
  subst e1
  subst e2
  constructor
  · rw [hu1] at hu2; exact Option.some.inj hu2
  · exact hu1

/-- Witness for C1 at a concrete session and traces. -/
theorem tenant_fixed_per_session_witness :
    ("alice" : String) = "alice" ∧ (SessionInfo.mk (some "alice") "tok1" 0).userId = some "alice" :=
  tenant_fixed_per_session
    (GState.mk [("s1", SessionInfo.mk (some "alice") "tok1" 0)] [("s1", Conn.mk false true)] [] 0)
    [GEvent.toolCall "s1", GEvent.hbTick "s1"]
    [GEvent.streamEnd "s1", GEvent.toolCall "s1"]
    "s1" (SessionInfo.mk (some "alice") "tok1" 0)
    (by rfl) (by decide) (by decide)
    "alice" "alice" (by rfl) (by rfl)

/-- A concrete state refuting C9 as stated: the heartbeat tick that finds
the stream already ended does NOT remove the session from the live session
map (the entry for `"s1"` is still present, unchanged, afterwards). -/
theorem heartbeat_ended_stream_keeps_session :
    mget (gHbTick
        (GState.mk [("s1", SessionInfo.mk (some "alice") "tok1" 0)]
          [("s1", Conn.mk true true)] [] 5) "s1").1.sessions "s1"
      = some (SessionInfo.mk (some "alice") "tok1" 0) := by rfl

/-- C9 (amended).  When the heartbeat fires and the push stream is already
ended, the tick stops the heartbeat timer, performs no write and
propagates no error, and leaves the session map untouched; removal of the
session is performed by the close handlers (`res.on("close")` /
`transport.onclose`), which delete the entry and also propagate no error. -/
theorem heartbeat_closed_stream_behavior (st : GState) (sid : String) (c : Conn)
    (hc : mget st.conns sid = some c) (hended : c.writableEnded = true) :
    (gHbTick st sid).2 = []
    ∧ (gHbTick st sid).1.sessions = st.sessions
    ∧ mget (gHbTick st sid).1.conns sid = some (Conn.mk c.writableEnded false)
    ∧ mget (gResClose st sid).1.sessions sid = none
    ∧ (gResClose st sid).2 = []
    ∧ mget (gTransportClose st sid).1.sessions sid = none
    ∧ (gTransportClose st sid).2 = [] := by
  refine ⟨?_, ?_, ?_, ?_, ?_, ?_, ?_⟩
  · unfold gHbTick
    rw [hc]
    dsimp only
    by_cases h1 : c.hbActive
    · rw [if_pos h1, if_pos hended]
    · rw [if_neg h1]
  · exact gHbTick_sessions st sid
  · unfold gHbTick
    rw [hc]
    dsimp only
    by_cases h1 : c.hbActive
    · rw [if_pos h1, if_pos hended]
      exact mget_mset_self st.conns sid _
    · rw [if_neg h1]
      dsimp only
      rw [hc]
      cases c with
      | mk w a =>
        simp only [Bool.not_eq_true] at h1
        subst h1
        rfl
  · unfold gResClose
    cases hs : mget st.sessions sid with
    | some s =>
        dsimp only
        exact mget_mdel_self st.sessions sid
    | none =>
        dsimp only
        exact hs
  · unfold gResClose
    cases hs : mget st.sessions sid <;> rfl
  · unfold gTransportClose
    cases hs : mget st.sessions sid with
    | some s =>
        dsimp only
        exact mget_mdel_self st.sessions sid
    | none =>
        dsimp only
        exact hs
  · unfold gTransportClose
    cases hs : mget st.sessions sid <;> rfl

/-- Witness for the amended C9 at a concrete state. -/
theorem heartbeat_closed_stream_behavior_witness :
    (gHbTick (GState.mk [("s1", SessionInfo.mk (some "alice") "tok1" 0)]
        [("s1", Conn.mk true true)] [] 5) "s1").2 = []
    ∧ (gHbTick (GState.mk [("s1", SessionInfo.mk (some "alice") "tok1" 0)]
        [("s1", Conn.mk true true)] [] 5) "s1").1.sessions
        = (GState.mk [("s1", SessionInfo.mk (some "alice") "tok1" 0)]
            [("s1", Conn.mk true true)] [] 5).sessions
    ∧ mget (gHbTick (GState.mk [("s1", SessionInfo.mk (some "alice") "tok1" 0)]
        [("s1", Conn.mk true true)] [] 5) "s1").1.conns "s1" = some (Conn.mk true false)
    ∧ mget (gResClose (GState.mk [("s1", SessionInfo.mk (some "alice") "tok1" 0)]
        [("s1", Conn.mk true true)] [] 5) "s1").1.sessions "s1" = none
    ∧ (gResClose (GState.mk [("s1", SessionInfo.mk (some "alice") "tok1" 0)]
        [("s1", Conn.mk true true)] [] 5) "s1").2 = []
    ∧ mget (gTransportClose (GState.mk [("s1", SessionInfo.mk (some "alice") "tok1" 0)]
        [("s1", Conn.mk true true)] [] 5) "s1").1.sessions "s1" = none
    ∧ (gTransportClose (GState.mk [("s1", SessionInfo.mk (some "alice") "tok1" 0)]
        [("s1", Conn.mk true true)] [] 5) "s1").2 = [] :=
  heartbeat_closed_stream_behavior _ "s1" (Conn.mk true true) (by rfl) (by rfl)

/-! ## Application-layer lemmas -/

theorem jsTruthyStr_some {x : Option String} {u : String} (h : jsTruthyStr x = some u) :
    x = some u ∧ u ≠ "" := by
  cases x with
  | none => cases h
  | some s =>
      by_cases hs : s = ""
      · rw [hs] at h
        simp [jsTruthyStr] at h
      · simp only [jsTruthyStr, if_neg hs] at h
        cases h
        exact ⟨rfl, hs⟩

theorem jsTruthyStr_of_ne {u : String} (h : u ≠ "") : jsTruthyStr (some u) = some u := by
  simp [jsTruthyStr, h]

/-- The store list the `stores` query produces for a user, as a pure
function of the database. -/
def userStores (st : AppState) (uid : String) : List Store :=
  (st.db.stores.filter (fun r => r.user_id = uid)).map Store.ofRow

theorem getStoresByUser_apply (uid : String) (st : AppState) (hcfg : st.dbConfigured = true) :
    getStoresByUser uid st = (userStores st uid, st, [ExtCall.sbGet "stores"]) := by
  unfold getStoresByUser sbGetRows userStores
  simp [hcfg, M.pure]

theorem findStoreByUser_apply (uid idf : String) (st : AppState) (hcfg : st.dbConfigured = true) :
    findStoreByUser uid idf st
      = (findStoreInList (userStores st uid) idf, st, [ExtCall.sbGet "stores"]) := by
  unfold findStoreByUser
  simp [M.bind_apply, M.pure, getStoresByUser_apply uid st hcfg]

/-- Success-path characterisation of the `set_active_store` handler:
resolves via `findStoreInList` over the tenant's stores, patches the
canonical `store.id` into `user_settings`, synchronously deletes the
tenant's settings-cache entry, and reports the display name. -/
theorem setActiveStoreHandler_success (st : AppState) (args : JObj) (extra : Extra)
    (uid : String) (store : Store)
    (hcfg : st.dbConfigured = true)
    (hres : jsTruthyStr (resolveUserIdFromExtra st extra) = some uid)
    (hfind : findStoreInList (userStores st uid) ((args.getStr "storeId").getD "") = some store)
    (hid : store.id ≠ "") :
    setActiveStoreHandler args extra st =
      (ok ("✅ Active store set to: " ++ store.displayName ++ " (" ++ store.id ++ ")"),
       { st with
           db := { st.db with user_settings := patchActive st.db.user_settings uid store.id }
           settingsCache := mdel st.settingsCache uid },
       [ExtCall.sbGet "stores", ExtCall.sbPatch "user_settings"]) := by
  rcases jsTruthyStr_some hres with ⟨_, huid⟩
  unfold setActiveStoreHandler guardUser
  rw [hres]
  simp only [M.bind_apply, findStoreByUser_apply uid _ st hcfg, hfind]
  unfold setActiveStore invalidateSettingsCache sbPatchUserSettingsActiveStore
  simp [jsTruthyStr_of_ne huid, jsTruthyStr_of_ne hid, hcfg, M.bind_apply, M.pure]

/-! ## C2: store resolution -/

/-- A fixed upstream oracle for concrete witnesses. -/
def upstreamOk : Upstream where
  generate := fun _ => GenResponse.mk (some "answer") none
  deleteDoc := fun _ => Except.ok ()

/-- An upstream oracle whose generated text echoes the store handles the
call was scoped to, making the queried store observable in the result. -/
def upstreamEcho : Upstream where
  generate := fun req => GenResponse.mk (some (String.intercalate "," req.storeNames)) none
  deleteDoc := fun _ => Except.ok ()

/-- A small concrete tenant database for witnesses. -/
def dbW : DB where
  stores := [StoreRow.mk "alice" "fs-1" (some "Finance Docs") (some 2)]
  documents := [DocRow.mk "alice" "d1" (some "report.pdf") (some "report.pdf") "fs-1" (some "application/pdf") none]
  user_settings := [SettingsRow.mk "alice" (some "fs-1") none none]
  mcp_api_keys := [KeyRow.mk "k1" "key-alice" "alice" true]

/-- A concrete app state with one live session for witnesses. -/
def stW : AppState where
  dbConfigured := true
  db := dbW
  authCache := []
  settingsCache := []
  sessions := [("sess1", SessionInfo.mk (some "alice") "key-alice" 0)]
  now := 1000
  upstream := upstreamOk

/-- The tenant database of the C2 counterexample: an earlier store whose
display name merely contains `"abc"`, and a later store whose id is
exactly `"abc"`. -/
def dbC2 : DB where
  stores := [StoreRow.mk "alice" "store-1" (some "xabcy") none,
             StoreRow.mk "alice" "abc" (some "Other") none]
  documents := []
  user_settings := [SettingsRow.mk "alice" none none none]
  mcp_api_keys := [KeyRow.mk "k1" "key-alice" "alice" true]

/-- A live settings-cache entry with no active store. -/
def entryC2 : SettingsEntry := SettingsEntry.mk (some (Settings.mk none none none)) 2000

/-- The state of the C2 counterexample, with the echoing upstream. -/
def stC2 : AppState where
  dbConfigured := true
  db := dbC2
  authCache := []
  settingsCache := [("alice", entryC2)]
  sessions := [("sess1", SessionInfo.mk (some "alice") "key-alice" 0)]
  now := 1000
  upstream := upstreamEcho

/-- Counterexample to C2 as stated.  With the tenant's stores being
`[{id:"store-1", displayName:"xabcy"}, {id:"abc", displayName:"Other"}]`
and identifier `"abc"`, the code's single-pass resolver returns the FIRST
store (whose display name merely contains `"abc"`), not the later store
whose id exactly equals `"abc"` — the spec's priority-ordered rule would
return the exact-id store — and `chat_with_store` called with
`storeId:"abc"` scopes its upstream query to that substring-matched store
(the echoed handle is `fileSearchStores/store-1`, not
`fileSearchStores/abc`). -/
theorem findStore_priority_counterexample :
    findStoreInList [Store.mk "store-1" "xabcy" 0, Store.mk "abc" "Other" 0] "abc"
        = some (Store.mk "store-1" "xabcy" 0)
    ∧ findStoreSpecOrdered [Store.mk "store-1" "xabcy" 0, Store.mk "abc" "Other" 0] "abc"
        = some (Store.mk "abc" "Other" 0)
    ∧ (chatWithStoreHandler [("message", JVal.jstr "x"), ("storeId", JVal.jstr "abc")]
        (Extra.mk (some "sess1")) stC2).1 = ok "fileSearchStores/store-1"
    ∧ (Store.mk "store-1" "xabcy" 0).id ≠ "abc"
    ∧ (Store.mk "abc" "Other" 0).id = "abc" :=
  ⟨by decide, by decide, by decide, by decide, by decide⟩

/-! ## C3/C4: `delete_document` stage lemmas -/

/-- The document list the `documents` query produces, as a pure function. -/
def userDocs (st : AppState) (uid : String) (sid : Option String) (lim : Nat) : List DocRow :=
  (st.db.documents.filter (fun d =>
    d.user_id = uid &&
      (match jsTruthyStr sid with
       | some s => d.store_id = s
       | none => true))).take (min lim 500)

theorem getDocumentsByUser_apply (uid : String) (sid : Option String) (lim : Nat)
    (st : AppState) (hcfg : st.dbConfigured = true) :
    getDocumentsByUser uid sid lim st
      = (userDocs st uid sid lim, st, [ExtCall.sbGet "documents"]) := by
  unfold getDocumentsByUser sbGetRows userDocs
  simp [hcfg, M.pure]

theorem getDocumentsByUser_state (uid : String) (sid : Option String) (lim : Nat)
    (st : AppState) : (getDocumentsByUser uid sid lim st).2.1 = st := by
  unfold getDocumentsByUser sbGetRows
  by_cases h : st.dbConfigured <;> simp [h, M.pure]

theorem getUserSettings_cacheHit (uid : String) (e : SettingsEntry) (st : AppState)
    (huid : uid ≠ "") (hhit : mget st.settingsCache uid = some e)
    (hfresh : st.now < e.expiresAt) :
    getUserSettings (some uid) st = (e.data, st, []) := by
  unfold getUserSettings
  rw [jsTruthyStr_of_ne huid]
  simp [M.bind_apply, M.get, hhit, hfresh, M.pure]

/-- The state after `delete_document`'s Supabase patch. -/
def withDocsMarked (st : AppState) (docId uid : String) : AppState :=
  { st with db := { st.db with documents := markDeleted st.db.documents docId uid st.now } }

/-- C2 (amended).  Store resolution in `chat_with_store` — and, through
the same function, in `set_active_store` — scans the tenant's stores
once, in the order the `stores` query returns them, and takes the first
store matching ANY of the three rules (lowercased id equality, lowercased
display-name equality, case-insensitive display-name substring); there is
no priority between the rules.  Consequently `chat_with_store` returns
the in-band "not found" error exactly when that single pass finds
nothing, and otherwise scopes its upstream RAG query to the store the
single pass selected; `set_active_store` resolves with the same function
and persists the canonical `store.id`. -/
theorem store_resolution_first_match_any_rule :
    (∀ (stores : List Store) (idf : String) (s : Store),
        findStoreInList stores idf = some s ↔
          storeMatches (strLower idf) s = true ∧
          ∃ pre post, stores = pre ++ s :: post ∧
            ∀ s' ∈ pre, storeMatches (strLower idf) s' = false)
    ∧ (∀ (st : AppState) (args : JObj) (extra : Extra) (uid : String),
        st.dbConfigured = true →
        jsTruthyStr (resolveUserIdFromExtra st extra) = some uid →
        findStoreInList (userStores st uid) ((args.getStr "storeId").getD "") = none →
        (chatWithStoreHandler args extra st).1
          = errR ("Store \"" ++ (args.getStr "storeId").getD "" ++ "\" not found."))
    ∧ (∀ (st : AppState) (args : JObj) (extra : Extra) (uid : String) (e : SettingsEntry)
          (store : Store),
        st.dbConfigured = true →
        jsTruthyStr (resolveUserIdFromExtra st extra) = some uid →
        mget st.settingsCache uid = some e →
        st.now < e.expiresAt →
        findStoreInList (userStores st uid) ((args.getStr "storeId").getD "") = some store →
        (chatWithStoreHandler args extra st).1
          = ok ((ragQuery ((args.getStr "message").getD "") [toStoreName store.id]
              (resolveModel (args.getStr "model") e.data) (resolvePrompt e.data) st).1))
    ∧ (∀ (st : AppState) (args : JObj) (extra : Extra) (uid : String) (store : Store),
        st.dbConfigured = true →
        jsTruthyStr (resolveUserIdFromExtra st extra) = some uid →
        findStoreInList (userStores st uid) ((args.getStr "storeId").getD "") = some store →
        store.id ≠ "" →
        (setActiveStoreHandler args extra st).1
            = ok ("✅ Active store set to: " ++ store.displayName ++ " (" ++ store.id ++ ")")
          ∧ ∀ r ∈ (setActiveStoreHandler args extra st).2.1.db.user_settings,
              r.user_id = uid → r.active_store_id = some store.id) := by
  refine ⟨?_, ?_, ?_, ?_⟩
  · intro stores idf s
    unfold findStoreInList
    rw [List.find?_eq_some]
    simp only [Bool.not_eq_true']
  · intro st args extra uid hcfg hres hfind
    unfold chatWithStoreHandler guardUser
    rw [hres]
    dsimp only
    simp only [M.bind_apply, findStoreByUser_apply uid _ st hcfg]
    rw [hfind]
    rfl
  · intro st args extra uid e store hcfg hres hhit hfresh hfind
    rcases jsTruthyStr_some hres with ⟨_, huid⟩
    unfold chatWithStoreHandler guardUser
    rw [hres]
    dsimp only
    simp only [M.bind_apply, findStoreByUser_apply uid _ st hcfg]
    rw [hfind]
    dsimp only
    simp only [M.bind_apply]
    rw [getUserSettings_cacheHit uid e st huid hhit hfresh]
    simp [M.bind_apply, M.pure]
  · intro st args extra uid store hcfg hres hfind hid
    rw [setActiveStoreHandler_success st args extra uid store hcfg hres hfind hid]
    refine ⟨rfl, ?_⟩
    intro r hr hruid
    simp only [patchActive, List.mem_map] at hr
    rcases hr with ⟨r0, hr0, hrr⟩
    by_cases h0 : r0.user_id = uid
    · rw [if_pos h0] at hrr
      subst hrr
      rfl
    · rw [if_neg h0] at hrr
      subst hrr
      exact absurd hruid h0

/-- Witness for the amended C2 at concrete inputs: `chat_with_store`
queries the store the single-pass rule selects, and `set_active_store`
persists the canonical id of the store the same rule selects. -/
theorem store_resolution_first_match_any_rule_witness :
    (chatWithStoreHandler [("message", JVal.jstr "x"), ("storeId", JVal.jstr "abc")]
        (Extra.mk (some "sess1")) stC2).1
      = ok ((ragQuery ((JObj.getStr [("message", JVal.jstr "x"), ("storeId", JVal.jstr "abc")]
              "message").getD "")
          [toStoreName (Store.mk "store-1" "xabcy" 0).id]
          (resolveModel (JObj.getStr [("message", JVal.jstr "x"), ("storeId", JVal.jstr "abc")]
              "model") entryC2.data)
          (resolvePrompt entryC2.data) stC2).1)
    ∧ ((setActiveStoreHandler [("storeId", JVal.jstr "Finance")] (Extra.mk (some "sess1")) stW).1
        = ok ("✅ Active store set to: " ++ (Store.mk "fs-1" "Finance Docs" 2).displayName
            ++ " (" ++ (Store.mk "fs-1" "Finance Docs" 2).id ++ ")")
      ∧ ∀ r ∈ (setActiveStoreHandler [("storeId", JVal.jstr "Finance")]
            (Extra.mk (some "sess1")) stW).2.1.db.user_settings,
          r.user_id = "alice" → r.active_store_id = some (Store.mk "fs-1" "Finance Docs" 2).id) :=
  ⟨store_resolution_first_match_any_rule.2.2.1 stC2
      [("message", JVal.jstr "x"), ("storeId", JVal.jstr "abc")] (Extra.mk (some "sess1"))
      "alice" entryC2 (Store.mk "store-1" "xabcy" 0)
      (by rfl) (by rfl) (by rfl) (by decide) (by decide),
   store_resolution_first_match_any_rule.2.2.2 stW [("storeId", JVal.jstr "Finance")]
      (Extra.mk (some "sess1")) "alice" (Store.mk "fs-1" "Finance Docs" 2)
      (by rfl) (by rfl) (by decide) (by decide)⟩

theorem sbPatchDocumentDeleted_settingsCache (d u : String) (st : AppState) :
    (sbPatchDocumentDeleted d u st).2.1.settingsCache = st.settingsCache := by
  unfold sbPatchDocumentDeleted
  by_cases h : st.dbConfigured <;> simp [h]

/-- After a settings-cache hit, `delete_document` never touches the
settings cache on any of its paths. -/
theorem deleteDocumentHandler_preserves_settingsCache (st : AppState) (args : JObj)
    (extra : Extra) (uid : String) (e : SettingsEntry)
    (hres : jsTruthyStr (resolveUserIdFromExtra st extra) = some uid)
    (hhit : mget st.settingsCache uid = some e) (hfresh : st.now < e.expiresAt) :
    (deleteDocumentHandler args extra st).2.1.settingsCache = st.settingsCache := by
  rcases jsTruthyStr_some hres with ⟨_, huid⟩
  unfold deleteDocumentHandler guardUser
  rw [hres]
  simp only [M.bind_apply]
  rw [getUserSettings_cacheHit uid e st huid hhit hfresh]
  cases hrid : jsOrStr (args.getStr "storeId") (e.data.bind (fun s => s.active_store_id)) with
  | none => simp [M.pure]
  | some rid =>
      simp only [M.bind_apply, getDocumentsByUser_state]
      cases hF : ((getDocumentsByUser uid (some rid) 500 st).1.find?
          (fun d => d.id = (args.getStr "documentId").getD "")) with
      | none => simp [M.pure]
      | some doc =>
          simp only [M.bind_apply, geminiDeleteDocCall]
          cases hD : st.upstream.deleteDoc
              (toStoreName rid ++ "/documents/" ++ (args.getStr "documentId").getD "") with
          | ok u => simp [M.bind_apply, M.pure, sbPatchDocumentDeleted_settingsCache]
          | error m =>
              by_cases h404 : strIncludes m "404"
              · simp [h404, M.bind_apply, M.pure, sbPatchDocumentDeleted_settingsCache]
              · simp [h404, M.pure]

/-- Full characterisation of `delete_document` past guard, cache-hit
settings read and store-id resolution. -/
theorem deleteDocumentHandler_run (st : AppState) (args : JObj) (extra : Extra)
    (uid : String) (e : SettingsEntry) (rid : String)
    (hcfg : st.dbConfigured = true)
    (hres : jsTruthyStr (resolveUserIdFromExtra st extra) = some uid)
    (hhit : mget st.settingsCache uid = some e) (hfresh : st.now < e.expiresAt)
    (hrid : jsOrStr (args.getStr "storeId") (e.data.bind (fun s => s.active_store_id))
        = some rid) :
    deleteDocumentHandler args extra st =
      (match (userDocs st uid (some rid) 500).find?
          (fun d => d.id = (args.getStr "documentId").getD "") with
       | none =>
          (errR ("Document \"" ++ (args.getStr "documentId").getD ""
              ++ "\" not found in your store. Use list_documents to see available IDs."),
            st, [ExtCall.sbGet "documents"])
       | some doc =>
          match st.upstream.deleteDoc
              (toStoreName rid ++ "/documents/" ++ (args.getStr "documentId").getD "") with
          | Except.ok _ =>
              (ok (deletedText doc ((args.getStr "documentId").getD "")),
               withDocsMarked st ((args.getStr "documentId").getD "") uid,
               [ExtCall.sbGet "documents",
                ExtCall.geminiDeleteDoc (toStoreName rid ++ "/documents/" ++ (args.getStr "documentId").getD ""),
                ExtCall.sbPatch "documents"])
          | Except.error m =>
              if strIncludes m "404" then
                (ok (deletedText doc ((args.getStr "documentId").getD "")),
                 withDocsMarked st ((args.getStr "documentId").getD "") uid,
                 [ExtCall.sbGet "documents",
                  ExtCall.geminiDeleteDoc (toStoreName rid ++ "/documents/" ++ (args.getStr "documentId").getD ""),
                  ExtCall.sbPatch "documents"])
              else
                (errR m, st,
                 [ExtCall.sbGet "documents",
                  ExtCall.geminiDeleteDoc (toStoreName rid ++ "/documents/" ++ (args.getStr "documentId").getD "")])) := by
  rcases jsTruthyStr_some hres with ⟨_, huid⟩
  unfold deleteDocumentHandler guardUser
  rw [hres]
  simp only [M.bind_apply]
  rw [getUserSettings_cacheHit uid e st huid hhit hfresh]
  rw [hrid]
  simp only [M.bind_apply, getDocumentsByUser_apply uid (some rid) 500 st hcfg]
  cases hF : ((userDocs st uid (some rid) 500).find?
      (fun d => d.id = (args.getStr "documentId").getD "")) with
  | none => simp [M.pure]
  | some doc =>
      simp only [M.bind_apply, geminiDeleteDocCall]
      cases hD : st.upstream.deleteDoc
          (toStoreName rid ++ "/documents/" ++ (args.getStr "documentId").getD "") with
      | ok u =>
          unfold sbPatchDocumentDeleted withDocsMarked
          simp [M.bind_apply, M.pure, hcfg]
      | error m =>
          by_cases h404 : strIncludes m "404"
          · unfold sbPatchDocumentDeleted withDocsMarked
            simp [h404, M.bind_apply, M.pure, hcfg]
          · simp [h404, M.pure]

/-! ## C3: settings-cache invalidation -/

/-- A live settings-cache entry for the witness tenant. -/
def entryC3 : SettingsEntry := SettingsEntry.mk (some (Settings.mk (some "fs-1") none none)) 2000

/-- `stW` with a live settings-cache entry for the tenant. -/
def stC3 : AppState := { stW with settingsCache := [("alice", entryC3)] }

/-- The tenant's document row in `dbW`. -/
def docW : DocRow :=
  DocRow.mk "alice" "d1" (some "report.pdf") (some "report.pdf") "fs-1" (some "application/pdf") none

/-- Counterexample to C3 as stated: a mutating `delete_document` call (it
succeeds and patches the document row) returns with the calling tenant's
settings-cache entry still present — the handler never deletes it. -/
theorem delete_document_keeps_settings_cache :
    mget (deleteDocumentHandler [("documentId", JVal.jstr "d1")]
        (Extra.mk (some "sess1")) stC3).2.1.settingsCache "alice" = some entryC3
    ∧ (deleteDocumentHandler [("documentId", JVal.jstr "d1")]
        (Extra.mk (some "sess1")) stC3).1 = ok (deletedText docW "d1")
    ∧ (deleteDocumentHandler [("documentId", JVal.jstr "d1")]
        (Extra.mk (some "sess1")) stC3).2.1.db.documents ≠ stC3.db.documents :=
  ⟨by decide, by decide, by decide⟩

/-- C3 (amended).  `set_active_store` deletes the calling tenant's
settings-cache entry synchronously before returning.  `delete_document`
does NOT touch the settings cache on any of its paths (its mutation
affects only document rows, which the settings cache does not hold): a
live cache entry survives the call unchanged. -/
theorem settings_cache_invalidation :
    (∀ (st : AppState) (args : JObj) (extra : Extra) (uid : String) (store : Store),
        st.dbConfigured = true →
        jsTruthyStr (resolveUserIdFromExtra st extra) = some uid →
        findStoreInList (userStores st uid) ((args.getStr "storeId").getD "") = some store →
        store.id ≠ "" →
        mget (setActiveStoreHandler args extra st).2.1.settingsCache uid = none)
    ∧ (∀ (st : AppState) (args : JObj) (extra : Extra) (uid : String) (e : SettingsEntry),
        jsTruthyStr (resolveUserIdFromExtra st extra) = some uid →
        mget st.settingsCache uid = some e →
        st.now < e.expiresAt →
        (deleteDocumentHandler args extra st).2.1.settingsCache = st.settingsCache) := by
  constructor
  · intro st args extra uid store hcfg hres hfind hid
    rw [setActiveStoreHandler_success st args extra uid store hcfg hres hfind hid]
    exact mget_mdel_self _ _
  · intro st args extra uid e hres hhit hfresh
    exact deleteDocumentHandler_preserves_settingsCache st args extra uid e hres hhit hfresh

/-- Witness for the amended C3 at concrete inputs. -/
theorem settings_cache_invalidation_witness :
    mget (setActiveStoreHandler [("storeId", JVal.jstr "Finance")]
        (Extra.mk (some "sess1")) stW).2.1.settingsCache "alice" = none
    ∧ (deleteDocumentHandler [("documentId", JVal.jstr "d1")]
        (Extra.mk (some "sess1")) stC3).2.1.settingsCache = stC3.settingsCache :=
  ⟨settings_cache_invalidation.1 stW [("storeId", JVal.jstr "Finance")] (Extra.mk (some "sess1"))
      "alice" (Store.mk "fs-1" "Finance Docs" 2) (by rfl) (by rfl) (by decide) (by decide),
   settings_cache_invalidation.2 stC3 [("documentId", JVal.jstr "d1")] (Extra.mk (some "sess1"))
      "alice" entryC3 (by rfl) (by rfl) (by decide)⟩

/-! ## C4: `delete_document` upstream tolerance and local-record gate -/

/-- C4.  With the tenant-owned document record present, `delete_document`
returns success both when the upstream delete succeeds and when it fails
with a not-found (`404`) message; with the record absent it returns an
in-band error and makes no upstream delete call (its trace is just the
ownership lookup). -/
theorem delete_document_upstream_tolerance :
    (∀ (st : AppState) (args : JObj) (extra : Extra) (uid : String) (e : SettingsEntry)
        (rid : String) (doc : DocRow),
        st.dbConfigured = true →
        jsTruthyStr (resolveUserIdFromExtra st extra) = some uid →
        mget st.settingsCache uid = some e →
        st.now < e.expiresAt →
        jsOrStr (args.getStr "storeId") (e.data.bind (fun s => s.active_store_id)) = some rid →
        (userDocs st uid (some rid) 500).find?
            (fun d => d.id = (args.getStr "documentId").getD "") = some doc →
        (st.upstream.deleteDoc
              (toStoreName rid ++ "/documents/" ++ (args.getStr "documentId").getD "")
              = Except.ok ()
          ∨ ∃ m, st.upstream.deleteDoc
              (toStoreName rid ++ "/documents/" ++ (args.getStr "documentId").getD "")
              = Except.error m ∧ strIncludes m "404" = true) →
        (deleteDocumentHandler args extra st).1
          = ok (deletedText doc ((args.getStr "documentId").getD "")))
    ∧ (∀ (st : AppState) (args : JObj) (extra : Extra) (uid : String) (e : SettingsEntry)
        (rid : String),
        st.dbConfigured = true →
        jsTruthyStr (resolveUserIdFromExtra st extra) = some uid →
        mget st.settingsCache uid = some e →
        st.now < e.expiresAt →
        jsOrStr (args.getStr "storeId") (e.data.bind (fun s => s.active_store_id)) = some rid →
        (userDocs st uid (some rid) 500).find?
            (fun d => d.id = (args.getStr "documentId").getD "") = none →
        (deleteDocumentHandler args extra st).1
            = errR ("Document \"" ++ (args.getStr "documentId").getD ""
                ++ "\" not found in your store. Use list_documents to see available IDs.")
          ∧ (deleteDocumentHandler args extra st).2.2 = [ExtCall.sbGet "documents"]) := by
  constructor
  · intro st args extra uid e rid doc hcfg hres hhit hfresh hrid hfind hup
    rw [deleteDocumentHandler_run st args extra uid e rid hcfg hres hhit hfresh hrid, hfind]
    rcases hup with h | ⟨m, hm, h404⟩
    · rw [h]
    · rw [hm]
      dsimp only
      rw [if_pos h404]
  · intro st args extra uid e rid hcfg hres hhit hfresh hrid hfind
    rw [deleteDocumentHandler_run st args extra uid e rid hcfg hres hhit hfresh hrid, hfind]
    exact ⟨rfl, rfl⟩

/-- Witness for C4: success with the record present (upstream delete
succeeds), in-band error with no upstream call when the record is absent. -/
theorem delete_document_upstream_tolerance_witness :
    (deleteDocumentHandler [("documentId", JVal.jstr "d1")] (Extra.mk (some "sess1")) stC3).1
        = ok (deletedText docW ((JObj.getStr [("documentId", JVal.jstr "d1")] "documentId").getD ""))
    ∧ ((deleteDocumentHandler [("documentId", JVal.jstr "zzz")] (Extra.mk (some "sess1")) stC3).1
          = errR ("Document \"" ++ (JObj.getStr [("documentId", JVal.jstr "zzz")] "documentId").getD ""
              ++ "\" not found in your store. Use list_documents to see available IDs.")
        ∧ (deleteDocumentHandler [("documentId", JVal.jstr "zzz")]
            (Extra.mk (some "sess1")) stC3).2.2 = [ExtCall.sbGet "documents"]) :=
  ⟨delete_document_upstream_tolerance.1 stC3 [("documentId", JVal.jstr "d1")]
      (Extra.mk (some "sess1")) "alice" entryC3 "fs-1" docW
      (by rfl) (by rfl) (by rfl) (by decide) (by rfl) (by decide) (Or.inl (by rfl)),
   delete_document_upstream_tolerance.2 stC3 [("documentId", JVal.jstr "zzz")]
      (Extra.mk (some "sess1")) "alice" entryC3 "fs-1"
      (by rfl) (by rfl) (by rfl) (by decide) (by rfl) (by decide)⟩

/-! ## C5: unconfigured backend and null-tenant refusal -/

/-- C5.  With no backing store configured, `resolveUser` short-circuits to
`{ userId: null, valid: true }` (no call, no state change) for any
non-empty credential.  Every registered tool except `help`, invoked on a
session whose tenant resolves to null (no session, or a session with a
null/empty userId), returns the in-band `No user session found.` error
with no state change and no backend or upstream call. -/
theorem null_tenant_handling :
    (∀ (st : AppState) (token : String),
        token ≠ "" → st.dbConfigured = false →
        resolveUser token st = (ResolveOut.mk none true, st, []))
    ∧ (∀ t ∈ registry, t.name ≠ "help" →
        ∀ (st : AppState) (extra : Extra) (args : JObj),
          jsTruthyStr (resolveUserIdFromExtra st extra) = none →
          t.handler args extra st = (errR "No user session found.", st, [])) := by
  constructor
  · intro st token htok hcfg
    unfold resolveUser
    rw [if_neg htok]
    simp [M.bind_apply, M.get, hcfg, M.pure]
  · intro t ht hname st extra args hres
    have hlink : getDocumentLinkHandler args extra st = (errR "No user session found.", st, []) := by
      unfold getDocumentLinkHandler guardSession
      unfold resolveUserIdFromExtra at hres
      cases hS : resolveSessionFromExtra st extra with
      | none => rfl
      | some sess =>
          rw [hS] at hres
          simp only [Option.some_bind] at hres
          dsimp only
          rw [hres]
    simp only [registry, List.mem_cons, List.not_mem_nil, or_false] at ht
    rcases ht with h|h|h|h|h|h|h|h|h|h|h
    · subst h
      unfold chatTool chatHandler guardUser
      dsimp only
      rw [hres]
    · subst h
      unfold chatWithStoreTool chatWithStoreHandler guardUser
      dsimp only
      rw [hres]
    · subst h
      unfold chatAllStoresTool chatAllStoresHandler guardUser
      dsimp only
      rw [hres]
    · subst h
      unfold listStoresTool listStoresHandler guardUser
      dsimp only
      rw [hres]
    · subst h
      unfold getActiveStoreTool getActiveStoreHandler guardUser
      dsimp only
      rw [hres]
    · subst h
      unfold setActiveStoreTool setActiveStoreHandler guardUser
      dsimp only
      rw [hres]
    · subst h
      unfold listDocumentsTool listDocumentsHandler guardUser
      dsimp only
      rw [hres]
    · subst h
      unfold summarizeTool summarizeHandler guardUser
      dsimp only
      rw [hres]
    · subst h
      unfold deleteDocumentTool deleteDocumentHandler guardUser
      dsimp only
      rw [hres]
    · subst h
      exact hlink
    · subst h
      exact absurd rfl hname

/-- An unconfigured (local-dev) state whose one session carries a null
tenant, as produced by connecting in no-DB mode. -/
def stNoDb : AppState :=
  { stW with dbConfigured := false,
             sessions := [("sess1", SessionInfo.mk none "key-alice" 0)] }

/-- Witness for C5 at concrete inputs. -/
theorem null_tenant_handling_witness :
    resolveUser "key-alice" stNoDb = (ResolveOut.mk none true, stNoDb, [])
    ∧ chatTool.handler [("message", JVal.jstr "hello")] (Extra.mk (some "sess1")) stNoDb
        = (errR "No user session found.", stNoDb, []) :=
  ⟨null_tenant_handling.1 stNoDb "key-alice" (by decide) (by rfl),
   null_tenant_handling.2 chatTool (by unfold registry; exact List.mem_cons_self chatTool _)
      (by decide) stNoDb (Extra.mk (some "sess1")) [("message", JVal.jstr "hello")] (by decide)⟩

/-! ## C6: auth-cache expiry -/

/-- C6.  With an auth-cache entry whose expiry is not strictly in the
future, `resolveUser` never serves the cached tenantId: it takes exactly
the fresh re-fetch path.  On that path a JWT-shaped token is rejected
without touching the cache; a backend miss returns invalid and leaves the
state unchanged (the stale entry stays but, by the first conjunct, is
never served); only a successful backend row repopulates the entry, with
the freshly looked-up tenantId and a new expiry. -/
theorem auth_cache_no_stale_serve (st : AppState) (token : String) (e : AuthEntry)
    (htok : token ≠ "") (hcfg : st.dbConfigured = true)
    (hhit : mget st.authCache token = some e) (hexp : e.expiresAt ≤ st.now) :
    resolveUser token st = resolveUserFresh token st
    ∧ (strHasPrefix "eyJ" token = true →
        resolveUser token st = (ResolveOut.mk none false, st, []))
    ∧ (strHasPrefix "eyJ" token = false →
        match (keyQuery token st.db).head? with
        | none =>
            resolveUser token st
              = (ResolveOut.mk none false, st, [ExtCall.sbGet "mcp_api_keys"])
        | some row =>
            (resolveUser token st).1 = ResolveOut.mk (some row.user_id) true
            ∧ (resolveUser token st).2.1.authCache
                = mset st.authCache token (AuthEntry.mk row.user_id (st.now + AUTH_CACHE_TTL_MS))) := by
  have hmain : resolveUser token st = resolveUserFresh token st := by
    unfold resolveUser
    rw [if_neg htok]
    simp only [M.bind_apply, M.get_apply]
    rw [if_pos hcfg, hhit]
    dsimp only
    rw [if_neg (Nat.not_lt.mpr hexp)]
    cases hF : resolveUserFresh token st with
    | mk a b => rfl
  refine ⟨hmain, ?_, ?_⟩
  · intro hjwt
    rw [hmain]
    unfold resolveUserFresh
    rw [if_pos hjwt]
    rfl
  · intro hjwt
    rw [hmain]
    unfold resolveUserFresh
    rw [if_neg (by rw [hjwt]; exact Bool.false_ne_true)]
    simp only [M.bind_apply, sbGetRows]
    rw [if_pos hcfg]
    dsimp only
    simp only [Option.getD_some]
    cases hrow : (keyQuery token st.db).head? with
    | none => simp [M.pure]
    | some row =>
        simp only [M.bind_apply, M.get_apply, M.setSt_apply, sbPatchKeyLastUsed]
        constructor
        · simp [M.pure]
        · simp [M.pure, hcfg]

/-- `stW` with an expired auth-cache entry carrying a stale tenantId. -/
def stC6 : AppState :=
  { stW with authCache := [("key-alice", AuthEntry.mk "mallory" 500)] }

/-- Witness for C6: the expired entry's stale `"mallory"` is not served —
the backend row for the credential resolves to `"alice"` and the cache is
repopulated with the fresh entry. -/
theorem auth_cache_no_stale_serve_witness :
    resolveUser "key-alice" stC6 = resolveUserFresh "key-alice" stC6
    ∧ ((resolveUser "key-alice" stC6).1 = ResolveOut.mk (some "alice") true
       ∧ (resolveUser "key-alice" stC6).2.1.authCache
           = mset stC6.authCache "key-alice" (AuthEntry.mk "alice" (stC6.now + AUTH_CACHE_TTL_MS))) := by
  have h := auth_cache_no_stale_serve stC6 "key-alice" (AuthEntry.mk "mallory" 500)
      (by decide) (by rfl) (by decide) (by decide)
  refine ⟨h.1, ?_⟩
  have h3 := h.2.2 (by decide)
  have hrow : (keyQuery "key-alice" stC6.db).head?
      = some (KeyRow.mk "k1" "key-alice" "alice" true) := by decide
  rw [hrow] at h3
  exact h3

/-! ## C7: citation de-duplication in the Sources block -/

/-- The source identifiers a chunk references: its truthy web URI and/or
truthy retrieved-context URI — exactly the values the citation loop reads. -/
def chunkIds (c : Chunk) : List String :=
  (match c.web with
   | some w => if w.uri ≠ "" then [w.uri] else []
   | none => []) ++
  (match c.retrievedContext with
   | some r => if r.uri ≠ "" then [r.uri] else []
   | none => [])

/-- Invariant of the citation loop: the emitted identifiers are distinct,
they are exactly the referenced identifiers not already in `seen`
(provided each chunk carries a single source, as the upstream schema
guarantees), and lines and identifiers are emitted in lockstep. -/
theorem sourcesGo_spec (chunks : List Chunk) :
    ∀ (seen : List String),
      (∀ c ∈ chunks, c.web = none ∨ c.retrievedContext = none) →
      (sourcesGo chunks seen).2.Nodup
      ∧ (∀ u, u ∈ (sourcesGo chunks seen).2 ↔ u ∈ chunks.flatMap chunkIds ∧ u ∉ seen)
      ∧ (sourcesGo chunks seen).1.length = (sourcesGo chunks seen).2.length := by
  induction chunks with
  | nil =>
      intro seen hone
      simp [sourcesGo]
  | cons c rest ih =>
      intro seen hone
      have hrest : ∀ x ∈ rest, x.web = none ∨ x.retrievedContext = none :=
        fun x hx => hone x (List.mem_cons_of_mem c hx)
      obtain ⟨cw, cr⟩ := c
      cases cw with
      | some w =>
          have hcr : cr = none := by
            rcases hone (Chunk.mk (some w) cr) (List.mem_cons_self _ _) with h | h
            · exact absurd h (by simp)
            · exact h
          subst hcr
          by_cases hcond : w.uri ≠ "" ∧ w.uri ∉ seen
          · have hstep : sourcesGo (Chunk.mk (some w) none :: rest) seen
                = (webLine w :: (sourcesGo rest (w.uri :: seen)).1,
                   w.uri :: (sourcesGo rest (w.uri :: seen)).2) := by
              simp only [sourcesGo]
              rw [if_pos hcond]
            obtain ⟨nd, mem, len⟩ := ih (w.uri :: seen) hrest
            rw [hstep]
            refine ⟨?_, ?_, by simpa using len⟩
            · rw [List.nodup_cons]
              refine ⟨fun hin => ?_, nd⟩
              exact ((mem w.uri).mp hin).2 (List.mem_cons_self _ _)
            · intro u
              rw [List.mem_cons, mem u]
              simp only [List.flatMap_cons, List.mem_append, chunkIds, List.mem_cons]
              rw [if_pos hcond.1]
              constructor
              · rintro (rfl | ⟨hflat, hnotin⟩)
                · exact ⟨Or.inl (by simp), hcond.2⟩
                · exact ⟨Or.inr hflat, fun hu => hnotin (Or.inr hu)⟩
              · rintro ⟨hl | hflat, hns⟩
                · left
                  simpa using hl
                · by_cases he : u = w.uri
                  · exact Or.inl he
                  · refine Or.inr ⟨hflat, fun hu => ?_⟩
                    rcases hu with h | h
                    · exact he h
                    · exact hns h
          · have hstep : sourcesGo (Chunk.mk (some w) none :: rest) seen
                = sourcesGo rest seen := by
              simp only [sourcesGo]
              rw [if_neg hcond]
            obtain ⟨nd, mem, len⟩ := ih seen hrest
            rw [hstep]
            refine ⟨nd, ?_, len⟩
            intro u
            rw [mem u]
            simp only [List.flatMap_cons, List.mem_append, chunkIds, List.append_nil]
            by_cases hw : w.uri = ""
            · simp [hw]
            · have hseen : w.uri ∈ seen := by
                rcases not_and_or.mp hcond with h | h
                · exact absurd hw h
                · exact not_not.mp h
              rw [if_pos hw]
              constructor
              · rintro ⟨hf, hs⟩
                exact ⟨Or.inr hf, hs⟩
              · rintro ⟨hm | hf, hs⟩
                · rw [List.mem_singleton] at hm
                  subst hm
                  exact absurd hseen hs
                · exact ⟨hf, hs⟩
      | none =>
          cases cr with
          | some r =>
              by_cases hcond : r.uri ≠ "" ∧ r.uri ∉ seen
              · have hstep : sourcesGo (Chunk.mk none (some r) :: rest) seen
                    = (rcLine r :: (sourcesGo rest (r.uri :: seen)).1,
                       r.uri :: (sourcesGo rest (r.uri :: seen)).2) := by
                  simp only [sourcesGo]
                  rw [if_pos hcond]
                obtain ⟨nd, mem, len⟩ := ih (r.uri :: seen) hrest
                rw [hstep]
                refine ⟨?_, ?_, by simpa using len⟩
                · rw [List.nodup_cons]
                  refine ⟨fun hin => ?_, nd⟩
                  exact ((mem r.uri).mp hin).2 (List.mem_cons_self _ _)
                · intro u
                  rw [List.mem_cons, mem u]
                  simp only [List.flatMap_cons, List.mem_append, chunkIds, List.nil_append,
                    List.mem_cons]
                  rw [if_pos hcond.1]
                  constructor
                  · rintro (rfl | ⟨hflat, hnotin⟩)
                    · exact ⟨Or.inl (by simp), hcond.2⟩
                    · exact ⟨Or.inr hflat, fun hu => hnotin (Or.inr hu)⟩
                  · rintro ⟨hl | hflat, hns⟩
                    · left
                      simpa using hl
                    · by_cases he : u = r.uri
                      · exact Or.inl he
                      · refine Or.inr ⟨hflat, fun hu => ?_⟩
                        rcases hu with h | h
                        · exact he h
                        · exact hns h
              · have hstep : sourcesGo (Chunk.mk none (some r) :: rest) seen
                    = sourcesGo rest seen := by
                  simp only [sourcesGo]
                  rw [if_neg hcond]
                obtain ⟨nd, mem, len⟩ := ih seen hrest
                rw [hstep]
                refine ⟨nd, ?_, len⟩
                intro u
                rw [mem u]
                simp only [List.flatMap_cons, List.mem_append, chunkIds, List.nil_append]
                by_cases hr : r.uri = ""
                · simp [hr]
                · have hseen : r.uri ∈ seen := by
                    rcases not_and_or.mp hcond with h | h
                    · exact absurd hr h
                    · exact not_not.mp h
                  rw [if_pos hr]
                  constructor
                  · rintro ⟨hf, hs⟩
                    exact ⟨Or.inr hf, hs⟩
                  · rintro ⟨hm | hf, hs⟩
                    · rw [List.mem_singleton] at hm
                      subst hm
                      exact absurd hseen hs
                    · exact ⟨hf, hs⟩
          | none =>
              have hstep : sourcesGo (Chunk.mk none none :: rest) seen
                  = sourcesGo rest seen := by
                simp only [sourcesGo]
              obtain ⟨nd, mem, len⟩ := ih seen hrest
              rw [hstep]
              refine ⟨nd, ?_, len⟩
              intro u
              rw [mem u]
              simp [chunkIds]

/-- C7.  When the upstream response carries grounding chunks (each with a
single source, per the upstream schema), the text `ragQuery` returns is
the generated text plus a `Sources:` block built from `sourcesGo`; the
block's entries are keyed by pairwise-distinct source identifiers, one
appended line per identifier, and the identifiers listed are exactly the
distinct identifiers referenced by the chunks — so a source referenced by
several chunks is listed exactly once. -/
theorem sources_block_dedup (st : AppState) (query : String) (storeNames : List String)
    (model : String) (sp : Option String) (cs : List Chunk)
    (hcs : (st.upstream.generate (GenRequest.mk query storeNames model sp)).groundingChunks
        = some cs)
    (hne : cs ≠ [])
    (hone : ∀ c ∈ cs, c.web = none ∨ c.retrievedContext = none) :
    (ragQuery query storeNames model sp st).1
      = (jsTruthyStr (st.upstream.generate (GenRequest.mk query storeNames model sp)).text).getD
          "(No response)" ++ "\n\nSources:" ++ String.join (sourcesGo cs []).1
    ∧ (sourcesGo cs []).2.Nodup
    ∧ (∀ u, u ∈ (sourcesGo cs []).2 ↔ u ∈ cs.flatMap chunkIds)
    ∧ (sourcesGo cs []).1.length = (sourcesGo cs []).2.length := by
  obtain ⟨nd, mem, len⟩ := sourcesGo_spec cs [] hone
  refine ⟨?_, nd, ?_, len⟩
  · unfold ragQuery
    dsimp only
    rw [hcs]
    dsimp only
    rw [if_pos (by simpa using hne)]
  · intro u
    rw [mem u]
    simp

/-- Chunks with a duplicated web source identifier and one
retrieved-context source. -/
def chunksC7 : List Chunk :=
  [Chunk.mk (some (WebRef.mk "https://a.example/p" (some "A"))) none,
   Chunk.mk (some (WebRef.mk "https://a.example/p" none)) none,
   Chunk.mk none (some (RetrievedRef.mk "stores/doc-7" (some "Doc 7")))]

/-- An upstream oracle answering with `chunksC7`. -/
def upstreamC7 : Upstream where
  generate := fun _ => GenResponse.mk (some "generated answer") (some chunksC7)
  deleteDoc := fun _ => Except.ok ()

def stC7 : AppState := { stW with upstream := upstreamC7 }

/-- Witness for C7: with a duplicated source identifier upstream, the
rendered block lists it once. -/
theorem sources_block_dedup_witness :
    (ragQuery "q" ["fileSearchStores/fs-1"] "gemini-2.5-flash" none stC7).1
      = (jsTruthyStr (stC7.upstream.generate
            (GenRequest.mk "q" ["fileSearchStores/fs-1"] "gemini-2.5-flash" none)).text).getD
          "(No response)" ++ "\n\nSources:" ++ String.join (sourcesGo chunksC7 []).1
    ∧ (sourcesGo chunksC7 []).2.Nodup
    ∧ (∀ u, u ∈ (sourcesGo chunksC7 []).2 ↔ u ∈ chunksC7.flatMap chunkIds)
    ∧ (sourcesGo chunksC7 []).1.length = (sourcesGo chunksC7 []).2.length :=
  sources_block_dedup stC7 "q" ["fileSearchStores/fs-1"] "gemini-2.5-flash" none chunksC7
    (by rfl) (by decide) (by decide)

/-! ## C8: argument validation -/

/-- Every issue's rendering occurs inside the joined issue string. -/
theorem joinIssues_contains (issues : List Issue) (i : Issue) (hi : i ∈ issues) :
    ∃ p q, joinIssues issues = p ++ (renderIssue i ++ q) := by
  induction issues with
  | nil => cases hi
  | cons j rest ih =>
      rcases List.mem_cons.mp hi with h | h
      · subst h
        cases rest with
        | nil =>
            refine ⟨"", "", ?_⟩
            rw [String.empty_append, String.append_empty]
            rfl
        | cons k t =>
            refine ⟨"", ", " ++ joinIssues (k :: t), ?_⟩
            rw [String.empty_append]
            show renderIssue i ++ ", " ++ joinIssues (k :: t) = _
            rw [String.append_assoc]
      · obtain ⟨p, q, hpq⟩ := ih h
        cases rest with
        | nil => cases h
        | cons k t =>
            refine ⟨renderIssue j ++ ", " ++ p, q, ?_⟩
            show renderIssue j ++ ", " ++ joinIssues (k :: t) = _
            rw [hpq]
            simp [String.append_assoc]

/-- C8.  For every tool invocation, the raw arguments are validated
against the tool's declared schema before the handler runs: on any
validation failure, `callTool` raises a protocol-level error (not an
in-band result), performs no state change and no external call, and its
message contains, for every failing field, the field's path together with
its reason. -/
theorem arg_validation_protocol_error (name : String) (t : Tool) (rawArgs : JObj)
    (sid : Option String) (st : AppState)
    (hfind : registry.find? (fun x => x.name = name) = some t)
    (hbad : validateArgs t.schema rawArgs ≠ []) :
    callTool name rawArgs sid st
        = (Except.error ("Invalid arguments: " ++ joinIssues (validateArgs t.schema rawArgs)),
           st, [])
    ∧ ∀ i ∈ validateArgs t.schema rawArgs,
        ∃ p q, "Invalid arguments: " ++ joinIssues (validateArgs t.schema rawArgs)
          = p ++ (renderIssue i ++ q) := by
  constructor
  · unfold callTool
    rw [hfind]
    dsimp only
    rw [if_neg (fun he => hbad (List.isEmpty_iff.mp he))]
  · intro i hi
    obtain ⟨p, q, hpq⟩ := joinIssues_contains (validateArgs t.schema rawArgs) i hi
    exact ⟨"Invalid arguments: " ++ p, q, by rw [hpq, String.append_assoc]⟩

/-- Witness for C8: calling `chat` with no `message` and a numeric `model`
yields a protocol error enumerating both issues. -/
theorem arg_validation_protocol_error_witness :
    callTool "chat" [("model", JVal.jnum 5)] (some "sess1") stW
        = (Except.error ("Invalid arguments: "
            ++ joinIssues (validateArgs chatTool.schema [("model", JVal.jnum 5)])), stW, [])
    ∧ ∀ i ∈ validateArgs chatTool.schema [("model", JVal.jnum 5)],
        ∃ p q, "Invalid arguments: " ++ joinIssues (validateArgs chatTool.schema [("model", JVal.jnum 5)])
          = p ++ (renderIssue i ++ q) :=
  arg_validation_protocol_error "chat" chatTool [("model", JVal.jnum 5)] (some "sess1") stW
    (by rfl) (by decide)

/-! ## C10: `get_document_link` embeds the bearer credential -/

/-- C10.  On every successful `get_document_link` invocation, the result
text ends in the download URL, whose final query parameter is the
session's stored bearer credential in plaintext
(`...//download?token=<credential>`); and the credential stored in a
session at registration time (`handleSse`) is exactly the token the
connection authenticated with (`req.token`). -/
theorem download_link_embeds_token (st : AppState) (args : JObj) (extra : Extra)
    (sess : SessionInfo) (uid : String) (e : SettingsEntry) (asId0 : String)
    (store : Store) (doc : DocRow)
    (hS : resolveSessionFromExtra st extra = some sess)
    (hU : jsTruthyStr sess.userId = some uid)
    (hcfg : st.dbConfigured = true)
    (hhit : mget st.settingsCache uid = some e) (hfresh : st.now < e.expiresAt)
    (hasid : jsOrStr (args.getStr "storeId") (e.data.bind (fun s => s.active_store_id))
        = some asId0)
    (hstore : findStoreInList (userStores st uid) asId0 = some store)
    (hdocs : userDocs st uid (some store.id) 500 ≠ [])
    (hdoc : findDocByQuery (userDocs st uid (some store.id) 500)
        (strTrim (strLower ((args.getStr "documentId").getD ""))) = some doc) :
    (getDocumentLinkHandler args extra st).1
      = ok ("📄 " ++ docLabel doc ++ "\n\nView:     "
          ++ (APP_URL ++ "/?tab=docs&storeId=" ++ store.id ++ "&docId=" ++ doc.id)
          ++ "\nDownload: "
          ++ (APP_URL ++ "/api/stores/" ++ store.id ++ "/documents/" ++ doc.id
              ++ "/download?token=" ++ sess.token))
    ∧ (∃ p, ((getDocumentLinkHandler args extra st).1).text
        = p ++ ("/download?token=" ++ sess.token))
    ∧ (∀ (gst : GState) (sid : String) (uidO : Option String) (tok : String),
        mget (gOpen gst sid uidO tok).sessions sid = some (SessionInfo.mk uidO tok gst.now)) := by
  rcases jsTruthyStr_some hU with ⟨_, huid⟩
  have hmain : (getDocumentLinkHandler args extra st).1
      = ok ("📄 " ++ docLabel doc ++ "\n\nView:     "
          ++ (APP_URL ++ "/?tab=docs&storeId=" ++ store.id ++ "&docId=" ++ doc.id)
          ++ "\nDownload: "
          ++ (APP_URL ++ "/api/stores/" ++ store.id ++ "/documents/" ++ doc.id
              ++ "/download?token=" ++ sess.token)) := by
    unfold getDocumentLinkHandler guardSession
    rw [hS]
    dsimp only
    rw [hU]
    dsimp only
    simp only [M.bind_apply]
    rw [getUserSettings_cacheHit uid e st huid hhit hfresh]
    dsimp only
    rw [hasid]
    dsimp only
    simp only [M.bind_apply, findStoreByUser_apply uid asId0 st hcfg]
    rw [hstore]
    dsimp only
    simp only [M.bind_apply, getDocumentsByUser_apply uid (some store.id) 500 st hcfg]
    rw [if_neg (fun he => hdocs (List.isEmpty_iff.mp he))]
    rw [hdoc]
    simp [M.pure]
  refine ⟨hmain, ?_, ?_⟩
  · refine ⟨"📄 " ++ docLabel doc ++ "\n\nView:     "
        ++ (APP_URL ++ "/?tab=docs&storeId=" ++ store.id ++ "&docId=" ++ doc.id)
        ++ "\nDownload: "
        ++ (APP_URL ++ "/api/stores/" ++ store.id ++ "/documents/" ++ doc.id), ?_⟩
    rw [hmain]
    show ("📄 " ++ docLabel doc ++ "\n\nView:     "
        ++ (APP_URL ++ "/?tab=docs&storeId=" ++ store.id ++ "&docId=" ++ doc.id)
        ++ "\nDownload: "
        ++ (APP_URL ++ "/api/stores/" ++ store.id ++ "/documents/" ++ doc.id
            ++ "/download?token=" ++ sess.token)) = _
    simp [String.append_assoc]
  · intro gst sid uidO tok
    unfold gOpen
    exact mget_mset_self _ _ _

/-- Witness for C10 at concrete inputs: the session's stored bearer key
`key-alice` appears as the trailing `token` query parameter. -/
theorem download_link_embeds_token_witness :
    (getDocumentLinkHandler [("documentId", JVal.jstr "report.pdf")]
        (Extra.mk (some "sess1")) stC3).1
      = ok ("📄 " ++ docLabel docW ++ "\n\nView:     "
          ++ (APP_URL ++ "/?tab=docs&storeId=" ++ (Store.mk "fs-1" "Finance Docs" 2).id
              ++ "&docId=" ++ docW.id)
          ++ "\nDownload: "
          ++ (APP_URL ++ "/api/stores/" ++ (Store.mk "fs-1" "Finance Docs" 2).id
              ++ "/documents/" ++ docW.id ++ "/download?token="
              ++ (SessionInfo.mk (some "alice") "key-alice" 0).token))
    ∧ (∃ p, ((getDocumentLinkHandler [("documentId", JVal.jstr "report.pdf")]
          (Extra.mk (some "sess1")) stC3).1).text
        = p ++ ("/download?token=" ++ (SessionInfo.mk (some "alice") "key-alice" 0).token))
    ∧ (∀ (gst : GState) (sid : String) (uidO : Option String) (tok : String),
        mget (gOpen gst sid uidO tok).sessions sid = some (SessionInfo.mk uidO tok gst.now)) :=
  download_link_embeds_token stC3 [("documentId", JVal.jstr "report.pdf")]
    (Extra.mk (some "sess1")) (SessionInfo.mk (some "alice") "key-alice" 0) "alice" entryC3
    "fs-1" (Store.mk "fs-1" "Finance Docs" 2) docW
    (by rfl) (by rfl) (by rfl) (by rfl) (by decide) (by rfl) (by decide) (by decide) (by decide)

end GeminiRag
